import Mathlib

/-!
# expo-router RSC renderer: embedding and verified properties

Shallow embedding of `packages/expo-router/src/rsc/rsc-renderer.ts`
(`renderRsc`, `parseFormData`, `getBuildConfig`, `fileURLToFilePath`, the
module resolver of `getSsrConfig`) and of the `MetroServerError` class of
`packages/expo-router/build/rsc/patchFetch.js`.

Conventions of the embedding

* A JavaScript string is a `List Char` (`Str`).
* `undefined` / `null` results are `Option.none`.
* A `throw` (or a rejected promise that is awaited) is `Except.error`.
* Collaborators that are not part of the file (the rendering engine, the
  encoder, the argument decoder, the server-reference table, the URI decoding
  built-ins) are fields of `Env` / `Entries`; every theorem quantifies over them.
-/

set_option autoImplicit false

namespace RscRenderer

/-! ## JavaScript strings -/

/-- A JavaScript string, as the list of its characters. -/
abbrev Str := List Char

/-- Embeds `s.startsWith(p)`. -/
def startsWith (s p : Str) : Bool := p.isPrefixOf s

/-- Worker of `jsSplit` for a non-empty separator: `skip` counts the characters
of a separator occurrence that are still to be consumed; the head of the result
is the piece under construction. -/
def splitGo (sep : Str) : Nat → Str → List Str
  | _, [] => [[]]
  | skip + 1, _ :: rest => splitGo sep skip rest
  | 0, c :: rest =>
    if sep.isPrefixOf (c :: rest) then
      [] :: splitGo sep (sep.length - 1) rest
    else
      match splitGo sep 0 rest with
      | p :: ps => (c :: p) :: ps
      | [] => [[c]]

/-- Embeds `s.split(sep)`: the pieces of `s` between the leftmost non-overlapping
occurrences of `sep`; with the empty separator, the characters of `s`. -/
def jsSplit (s sep : Str) : List Str :=
  if sep = [] then s.map (fun c => [c]) else splitGo sep 0 s

/-- Embeds `s.split(sep, limit)`: the first `limit` pieces of `s.split(sep)`. -/
def jsSplitLimit (s sep : Str) (limit : Nat) : List Str :=
  (jsSplit s sep).take limit

/-- White space and line terminators removed by `String.prototype.trim`. -/
def isJsWhitespace (c : Char) : Bool :=
  c.toNat = 0x09 || c.toNat = 0x0A || c.toNat = 0x0B || c.toNat = 0x0C || c.toNat = 0x0D ||
  c.toNat = 0x20 || c.toNat = 0xA0 || c.toNat = 0x1680 ||
  (0x2000 ≤ c.toNat && c.toNat ≤ 0x200A) ||
  c.toNat = 0x2028 || c.toNat = 0x2029 || c.toNat = 0x202F || c.toNat = 0x205F ||
  c.toNat = 0x3000 || c.toNat = 0xFEFF

/-- Embeds `s.trim()`. -/
def jsTrim (s : Str) : Str :=
  ((s.dropWhile isJsWhitespace).reverse.dropWhile isJsWhitespace).reverse

/-- Embeds `s.toLowerCase()`, on the ASCII letters; other characters are kept. (No
character outside ASCII lower-cases to a letter of `content-disposition` or
`content-type`, the only keys the header table is read at.) -/
def jsToLowerCase (s : Str) : Str := s.map Char.toLower

/-- A character matched by the class `[0-9a-z]` under the `i` flag. -/
def isAlnum (c : Char) : Bool :=
  ('0'.toNat ≤ c.toNat && c.toNat ≤ '9'.toNat) ||
  ('a'.toNat ≤ c.toNat && c.toNat ≤ 'z'.toNat) ||
  ('A'.toNat ≤ c.toNat && c.toNat ≤ 'Z'.toNat)

/-- The pattern `[0-9a-z]{40}#` (flag `i`) matched at the start of `s`. -/
def actionIdMatchHere (s : Str) : Bool :=
  (s.take 40).length = 40 && (s.take 40).all isAlnum && (s.drop 40).head? = some '#'

/-- Whether `encodedId.match(/[0-9a-z]{40}#/i)` is not null: the pattern matches at
some position of `s` (the pattern is not anchored). -/
def actionIdMatch : Str → Bool
  | [] => false
  | c :: rest => actionIdMatchHere (c :: rest) || actionIdMatch rest

/-- The pattern `pre"([^"]+)"` matched at the start of `s`: the captured group. -/
def quotedHere (pre s : Str) : Option Str :=
  if pre.isPrefixOf s then
    let r := s.drop pre.length
    let g := r.takeWhile (fun c => c != '"')
    if g != [] && (r.drop g.length).head? = some '"' then some g else none
  else none

/-- Embeds `/pre"([^"]+)"/.exec(s)`: group 1 of the leftmost match, `none` for `null`. -/
def quotedExec (pre : Str) : Str → Option Str
  | [] => none
  | c :: rest =>
    match quotedHere pre (c :: rest) with
    | some g => some g
    | none => quotedExec pre rest

/-! ## Values, records and errors -/

/-- An opaque JavaScript value (a React node, an action argument or result, a
context entry), identified by a label. -/
structure JsVal where
  label : Str
  deriving DecidableEq, Repr

/-- A plain object: its own enumerable string-keyed properties, in insertion
order. Every key occurs once in an object built by `objSet` from `[]`. -/
abbrev Obj (β : Type) := List (Str × β)

/-- Embeds `Object.keys(o)`. -/
def objKeys {β : Type} (o : Obj β) : List Str := o.map Prod.fst

/-- Embeds `o[k]`, `none` when `o` has no own property `k`. The list is read as the
property definitions of an object literal: a later definition of a key
replaces an earlier one. -/
def objGet {β : Type} (o : Obj β) (k : Str) : Option β :=
  match o with
  | [] => none
  | (k1, v) :: rest =>
    match objGet rest k with
    | some w => some w
    | none => if k1 = k then some v else none

/-- Embeds `o[k] = v`: overwrites the property in place when present, appends it otherwise. -/
def objSet {β : Type} (o : Obj β) (k : Str) (v : β) : Obj β :=
  if (objKeys o).contains k then o.map (fun e => if e.1 = k then (k, v) else e)
  else o ++ [(k, v)]

/-- Copies the own properties of `src` onto `target`, one after the other:
the effect of a spread element `...src` inside an object literal whose
properties so far are `target`. -/
def objAssign {β : Type} (target src : Obj β) : Obj β :=
  src.foldl (fun acc e => objSet acc e.1 e.2) target

/-- Spread of a value that may be `null`: `...null` contributes nothing. -/
def objAssignNullable {β : Type} (target : Obj β) (src : Option (Obj β)) : Obj β :=
  match src with
  | none => target
  | some o => objAssign target o

/-- The element tree produced by the rendering engine. -/
abbrev Elements := Obj JsVal

/-- Errors. One constructor for each `throw` of the file, `typeError` for a
run-time `TypeError` raised by the file's own code, and `external` for
whatever a collaborator throws. -/
inductive JsError where
  /-- Line 33: `new Error('Unexepected buffer type')`. -/
  | unexpectedBufferType
  /-- Lines 151-153: `new Error('No function component found at: ' + input)`
  with `statusCode = 404`. -/
  | noFunctionComponent (input : Str)
  /-- Lines 156 and 190: `new Error('"_" prefix is reserved')`. -/
  | reservedKey
  /-- Line 142: `new Error('Cannot rerender')`. -/
  | cannotRerender
  /-- Line 173: `new Error('already rendered')`. -/
  | alreadyRendered
  /-- Line 215: the unknown action id and the debug description. -/
  | serverActionNotFound (rsfId : Str) (debugDescription : Str)
  /-- Line 360: `new Error('Not a file URL')`. -/
  | notAFileURL
  /-- A `TypeError` of the JavaScript run time (property read on `undefined`,
  call of a value that is not a function). -/
  | typeError (what : Str)
  /-- An error thrown or rejected by a collaborator. -/
  | external (message : Str)
  deriving DecidableEq, Repr

/-- The `message` of an error. -/
def JsError.message : JsError → Str
  | .unexpectedBufferType => "Unexepected buffer type".toList
  | .noFunctionComponent input => "No function component found at: ".toList ++ input
  | .reservedKey => "\"_\" prefix is reserved".toList
  | .cannotRerender => "Cannot rerender".toList
  | .alreadyRendered => "already rendered".toList
  | .serverActionNotFound rsfId dbg =>
    "Server action not found: \"".toList ++ rsfId ++ "\". ".toList ++ dbg
  | .notAFileURL => "Not a file URL".toList
  | .typeError what => what
  | .external m => m

/-- The `statusCode` property of an error, when the file sets one (line 152). -/
def JsError.statusCode : JsError → Option Nat
  | .noFunctionComponent _ => some 404
  | _ => none

/-! ## Module reference resolver (`bundlerConfig`, lines 92-132) -/

/-- The descriptor returned by the `get` trap of `bundlerConfig`. -/
structure ModuleDescriptor where
  id : Str
  chunks : List Str
  name : Str
  async : Bool
  deriving DecidableEq, Repr

/-- Result of `resolveClientEntry`. -/
structure ResolvedEntry where
  id : Str
  url : List Str
  deriving DecidableEq, Repr

/-- Embeds `ResolveClientEntry` (line 68). -/
abbrev ResolveClientEntry := Str → ResolvedEntry

/-- What a collaborator produces: a value, or the message of the error it
throws (or rejects with). -/
abbrev Ext (α : Type) := Except Str α

/-- An awaited collaborator result: its error reaches the file as `external`. -/
def liftExt {α : Type} : Ext α → Except JsError α
  | .ok a => .ok a
  | .error m => .error (.external m)

/-- Embeds `fileURLToFilePath` (lines 358-363). `decodeURI` is the JavaScript
built-in, which throws on a malformed escape sequence. -/
def fileURLToFilePath (decodeURI : Str → Ext Str) (fileURL : Str) :
    Except JsError Str :=
  if !startsWith fileURL "file://".toList then
    .error .notAFileURL
  else
    liftExt (decodeURI (fileURL.drop "file://".toList.length))

/-- Line 109: `file.startsWith('file://') ? fileURLToFilePath(file) : file`. -/
def toFilePath (decodeURI : Str → Ext Str) (file : Str) : Except JsError Str :=
  if startsWith file "file://".toList then fileURLToFilePath decodeURI file else .ok file

/-- The `get` trap of `bundlerConfig` in `renderRsc` (lines 95-130).
`none` is the `undefined` the trap returns when neither a resolver is
supplied nor the render is an export. -/
def bundlerConfigGet (decodeURI : Str → Ext Str) (isExporting : Bool)
    (resolveClientEntry : Option ResolveClientEntry) (encodedId : Str) :
    Except JsError (Option ModuleDescriptor) :=
  let parts := jsSplit encodedId "#".toList
  let file := parts.headD []
  let name := (parts.get? 1).getD []
  if actionIdMatch encodedId then
    .ok (some { id := encodedId, chunks := [encodedId], name := name, async := true })
  else
    match toFilePath decodeURI file with
    | .error e => .error e
    | .ok filePath =>
      match resolveClientEntry with
      | some resolve =>
        let resolved := resolve filePath
        .ok (some { id := resolved.id, chunks := resolved.url, name := name, async := true })
      | none =>
        if isExporting then
          .ok (some { id := filePath, chunks := ["chunk:".toList ++ filePath], name := name,
                      async := true })
        else
          .ok none

/-! ## Multipart decoding (`parseFormData`, lines 228-259) -/

/-- A value stored in a `FormData`. -/
inductive FormValue where
  /-- A string entry. -/
  | text (value : Str)
  /-- A `File` entry made from a `Blob`: file name, media type, content. -/
  | file (filename : Str) (type : Str) (content : Str)
  deriving DecidableEq, Repr

/-- A `FormData`: its entries in the order they were appended. -/
abbrev FormData := List (Str × FormValue)

/-- The `type` of a `Blob` built with `new Blob(parts, options)`: the type
given in the options, in lower case, or the empty string when it has a character
outside U+0020..U+007E. -/
def blobType (type : Str) : Str :=
  if type.all (fun c => 0x20 ≤ c.toNat && c.toNat ≤ 0x7E) then jsToLowerCase type else []

/-- The reducer of lines 236-240: one header line stored in the table. The
value is `undefined` (`none`) when the line has no `": "`. -/
def addHeader (acc : Obj (Option Str)) (currentHeader : Str) : Obj (Option Str) :=
  let kv := jsSplit currentHeader ": ".toList
  objSet acc (jsToLowerCase (kv.headD [])) (kv.get? 1)

/-- The body of the loop of lines 232-257 for one part. -/
def parsePart (formData : FormData) (part : Str) : Except JsError FormData :=
  if jsTrim part = [] || part = "--".toList then .ok formData
  else
    let pieces := jsSplitLimit part "\r\n\r\n".toList 2
    let rawHeaders := pieces.headD []
    let content : Option Str := pieces.get? 1
    let headers := (jsSplit rawHeaders "\r\n".toList).foldl addHeader []
    -- a regular expression applied to `undefined` is applied to the text "undefined"
    let contentDisposition := ((objGet headers "content-disposition".toList).join).getD
      "undefined".toList
    let nameMatch := quotedExec "name=\"".toList contentDisposition
    let filenameMatch := quotedExec "filename=\"".toList contentDisposition
    match nameMatch with
    | none => .ok formData
    | some name =>
      match filenameMatch with
      | some filename =>
        let type := match (objGet headers "content-type".toList).join with
          | some (c :: cs) => c :: cs
          | _ => "application/octet-stream".toList
        .ok (formData ++ [(name, .file filename (blobType type) (content.getD "undefined".toList))])
      | none =>
        match content with
        | some c => .ok (formData ++ [(name, .text (jsTrim c))])
        | none => .error (.typeError "Cannot read properties of undefined".toList)

/-- Embeds `parseFormData(body, contentType)` (lines 228-259). -/
def parseFormData (body contentType : Str) : Except JsError FormData :=
  let boundary := ((jsSplit contentType "boundary=".toList).get? 1).getD "undefined".toList
  let parts := jsSplit body ("--".toList ++ boundary)
  parts.foldlM parsePart []

/-! ## Promises -/

/-- A settled promise: the instant at which it settles and its outcome (the
value it fulfils with or the reason it rejects with). -/
structure Promise (α : Type) where
  settledAt : Nat
  outcome : Ext α

/-- Embeds `Promise.resolve(a)`. -/
def Promise.resolve {α : Type} (a : α) : Promise α := ⟨0, .ok a⟩

/-- Embeds `Promise.all([p, q])`: fulfils once both have fulfilled, rejects as soon
as one rejects. -/
def Promise.all2 {α β : Type} (p : Promise α) (q : Promise β) : Promise (α × β) :=
  match p.outcome, q.outcome with
  | .ok a, .ok b => ⟨max p.settledAt q.settledAt, .ok (a, b)⟩
  | .error e, .ok _ => ⟨p.settledAt, .error e⟩
  | .ok _, .error e => ⟨q.settledAt, .error e⟩
  | .error e1, .error e2 =>
    if p.settledAt ≤ q.settledAt then ⟨p.settledAt, .error e1⟩ else ⟨q.settledAt, .error e2⟩

/-- Embeds `p.then(f)` for a callback `f` that does not throw. -/
def Promise.andThen {α β : Type} (p : Promise α) (f : α → β) : Promise β :=
  ⟨p.settledAt, p.outcome.map f⟩

/-! ## Collaborators -/

/-- A `URLSearchParams`, as its list of pairs. -/
abbrev SearchParams := List (Str × Str)

/-- The second argument of `renderEntries` (lines 146-149, 177). -/
structure RenderOpts where
  searchParams : SearchParams
  buildConfig : Option JsVal
  deriving DecidableEq, Repr

/-- A call of `renderStore.rerender(input, searchParams)`; `searchParams` is
`none` when the argument is omitted. -/
structure RerenderCall where
  input : Str
  searchParams : Option SearchParams
  deriving DecidableEq, Repr

/-- What one invocation of a server action does to the render scope: the
`rerender` calls made before line 187 reads `elementsPromise` (the action
has settled by then), the outcome of the action, the `rerender` calls that
arrive while line 187 awaits, and those that arrive after line 188. The
calls of the last two groups come from work the action left running. -/
structure ActionRun where
  beforeSettle : List RerenderCall
  outcome : Ext JsVal
  whileAwaiting : List RerenderCall
  afterwards : List RerenderCall

/-- A server action: its behaviour for a given render context and arguments. -/
abbrev Action := Obj JsVal → List JsVal → ActionRun

/-- A value that is called as a function: `none` when it is not callable. -/
abbrev Callee := Option Action

/-- The value `getServerReference(id)` returns when the id is known: the
value itself as a callee and its truthy properties. -/
structure ServerReference where
  self : Callee
  prop : Str → Option Callee

/-- The first argument of `decodeReply`. -/
inductive ReplyBody where
  | text (body : Str)
  | form (formData : FormData)
  deriving DecidableEq, Repr

/-- The value of one `reader.read()` result that is not the last. -/
inductive ReadValue where
  /-- A `Uint8Array`, with the text the streaming decoder yields for it. -/
  | bytes (decoded : Str)
  /-- A falsy value. -/
  | falsy
  /-- A truthy value that is not a `Uint8Array`. -/
  | other
  deriving DecidableEq, Repr

/-- A request body: the values read before the stream is done, the error the
stream fails with (if it does), and the text of the final `decoder.decode()`. -/
structure BodyStream where
  reads : List ReadValue
  failure : Option Str
  flushed : Str
  deriving DecidableEq, Repr

/-- The `getBuildConfig` hook of the entries module, as what it does with the
collector it is handed: it returns (or throws), or it calls the collector on
an input and goes on according to the outcome of that call. -/
inductive BuildHook where
  /-- The hook settles with `output`. -/
  | done (output : Except JsError (List JsVal))
  /-- The hook calls the collector on `input` and continues with `next`. -/
  | collect (input : Str) (next : Except JsError (List Str) → BuildHook)

/-- The entries module (`entries.default` and `entries.buildConfig`).
`renderEntries n input opts` is the promise returned by the invocation that
follows `n` earlier invocations within the request (the engine may keep state). -/
structure Entries where
  renderEntries : Nat → Str → RenderOpts → Promise (Option Elements)
  buildConfig : Option JsVal
  getBuildConfig : Option BuildHook

/-- The collaborators of the file other than the entries module. -/
structure Env where
  /-- Built-in `decodeURI`. -/
  decodeURI : Str → Ext Str
  /-- Built-in `decodeURIComponent`. -/
  decodeURIComponent : Str → Ext Str
  /-- The `decodeReply` of the React server package. -/
  decodeReply : ReplyBody → Ext (List JsVal)
  /-- The `getServerReference` of `../server-actions`, a read-only table. -/
  getServerReference : Str → Option ServerReference
  /-- The value of `getDebugDescription()` of `../server-actions`. -/
  getDebugDescription : Str
  /-- The encoded ids the encoder reads from `bundlerConfig` while it
  serialises a tree. -/
  clientReferences : Elements → List Str
  /-- The error with which the encoded stream of a tree aborts, if it does. -/
  streamFailure : Elements → Option Str

/-- The stream returned by `renderToReadableStream`: the tree it encodes,
what `bundlerConfig` returned for each id the encoder read, and the abort
reason of the stream. -/
structure EncodedStream where
  tree : Elements
  resolved : List (Str × Except JsError (Option ModuleDescriptor))
  failure : Option Str

/-- Embeds `renderToReadableStream(elements, bundlerConfig)`. -/
def renderToReadableStream (env : Env)
    (bundlerConfig : Str → Except JsError (Option ModuleDescriptor)) (elements : Elements) :
    EncodedStream :=
  { tree := elements
    resolved := (env.clientReferences elements).map (fun id => (id, bundlerConfig id))
    failure := env.streamFailure elements }

/-- Modelled from the spec: `runWithRenderStore` of `./server`, which is not
part of the sources at hand. It runs the callback with the render store as
the ambient store of that scope and returns the callback's result. -/
def runWithRenderStore {σ α : Type} (_renderStore : σ) (fn : Unit → α) : α := fn ()

/-! ## `renderRsc` (lines 82-225) -/

/-- The loop of lines 29-37 of `streamToString`, over the values read. -/
def readAll : List ReadValue → Except JsError (List Str)
  | [] => .ok []
  | .bytes decoded :: rest => (readAll rest).map (fun outs => decoded :: outs)
  | .falsy :: rest => readAll rest
  | .other :: _ => .error .unexpectedBufferType

/-- Embeds `streamToString` (lines 24-40). -/
def streamToString (stream : BodyStream) : Except JsError Str :=
  match readAll stream.reads with
  | .error e => .error e
  | .ok outs =>
    match stream.failure with
    | some m => .error (.external m)
    | none => .ok (outs ++ [stream.flushed]).flatten

/-- Request method. -/
inductive Method where
  | GET
  | POST
  deriving DecidableEq, Repr

/-- Embeds `RenderRscArgs` (lines 49-66). `config` is not read by the file and is left
out; `moduleIdCallback`, when supplied, is the update it performs on the
caller's id set for a descriptor. -/
structure RenderRscArgs where
  input : Str
  searchParams : SearchParams
  method : Method
  context : Option (Obj JsVal)
  body : Option BodyStream
  contentType : Option Str
  moduleIdCallback : Option (ModuleDescriptor → List Str → List Str)

/-- Embeds `RenderRscOpts` (lines 70-80). -/
structure RenderRscOpts where
  isExporting : Bool
  entries : Entries
  resolveClientEntry : Option ResolveClientEntry

/-- What a call of `renderRsc` does: the outcome of the promise it returns and
the calls it made to its collaborators, each list in call order. -/
structure Run where
  result : Except JsError EncodedStream
  renderEntriesCalls : List (Str × RenderOpts)
  encoderCalls : List Elements
  actionCalls : List (List JsVal)
  rerenderResults : List (Except JsError Unit)
  moduleIdCallbackCalls : List ModuleDescriptor

/-- A run that fails with `e` before any collaborator was called. -/
def Run.failed (e : JsError) : Run :=
  { result := .error e, renderEntriesCalls := [], encoderCalls := [], actionCalls := [],
    rerenderResults := [], moduleIdCallbackCalls := [] }

/-- Embeds `Object.keys(elements).some((key) => key.startsWith('_'))` (lines 155, 189). -/
def hasReservedKey (elements : Elements) : Bool :=
  (objKeys elements).any (fun key => startsWith key "_".toList)

/-- The render store of a GET render (lines 139-144). -/
structure RenderStore where
  context : Obj JsVal
  rerender : RerenderCall → Except JsError Unit

/-- Embeds `renderWithContext` (lines 134-160). -/
def renderWithContext (env : Env) (entries : Entries)
    (bundlerConfig : Str → Except JsError (Option ModuleDescriptor))
    (context : Option (Obj JsVal)) (input : Str) (searchParams : SearchParams) : Run :=
  let renderStore : RenderStore :=
    { context := context.getD [], rerender := fun _ => .error .cannotRerender }
  runWithRenderStore renderStore fun _ =>
    let opts : RenderOpts := { searchParams := searchParams, buildConfig := entries.buildConfig }
    match liftExt (entries.renderEntries 0 input opts).outcome with
    | .error e => { Run.failed e with renderEntriesCalls := [(input, opts)] }
    | .ok none =>
      { Run.failed (.noFunctionComponent input) with renderEntriesCalls := [(input, opts)] }
    | .ok (some elements) =>
      if hasReservedKey elements then
        { Run.failed .reservedKey with renderEntriesCalls := [(input, opts)] }
      else
        { result := .ok (renderToReadableStream env bundlerConfig elements)
          renderEntriesCalls := [(input, opts)]
          encoderCalls := [elements]
          actionCalls := []
          rerenderResults := []
          moduleIdCallbackCalls := [] }

/-- The mutable state of a POST render scope (lines 167-168), with the log of
the `renderEntries` invocations made through `rerender`. -/
structure Scope where
  elementsPromise : Promise Elements
  rendered : Bool
  renderEntriesCalls : List (Str × RenderOpts)

/-- The scope at lines 167-168. -/
def Scope.initial : Scope :=
  { elementsPromise := Promise.resolve [], rendered := false, renderEntriesCalls := [] }

/-- Embeds `renderStore.rerender` of a POST render (lines 171-183): the outcome of the
promise it returns and the scope after the call. -/
def rerender (entries : Entries) (s : Scope) (call : RerenderCall) :
    Except JsError Unit × Scope :=
  if s.rendered then
    (.error .alreadyRendered, s)
  else
    let opts : RenderOpts :=
      { searchParams := call.searchParams.getD [], buildConfig := entries.buildConfig }
    let newElements := entries.renderEntries s.renderEntriesCalls.length call.input opts
    (.ok (),
     { s with
       elementsPromise := (Promise.all2 s.elementsPromise newElements).andThen
         (fun r => objAssignNullable (objAssign [] r.1) r.2)
       renderEntriesCalls := s.renderEntriesCalls ++ [(call.input, opts)] })

/-- A sequence of `rerender` calls, in call order. -/
def rerenderAll (entries : Entries) (s : Scope) :
    List RerenderCall → List (Except JsError Unit) × Scope
  | [] => ([], s)
  | call :: calls =>
    let r := rerender entries s call
    let rs := rerenderAll entries r.2 calls
    (r.1 :: rs.1, rs.2)

/-- Embeds `renderWithContextWithAction` (lines 162-194). -/
def renderWithContextWithAction (env : Env) (entries : Entries)
    (bundlerConfig : Str → Except JsError (Option ModuleDescriptor))
    (context : Option (Obj JsVal)) (actionFn : Callee) (actionArgs : List JsVal) : Run :=
  runWithRenderStore (context.getD []) fun _ =>
    match actionFn with
    | none => Run.failed (.typeError "actionFn is not a function".toList)
    | some fn =>
      let act := fn (context.getD []) actionArgs
      -- line 186: the action runs and settles
      let before := rerenderAll entries Scope.initial act.beforeSettle
      match act.outcome with
      | .error m =>
        let later := rerenderAll entries before.2 (act.whileAwaiting ++ act.afterwards)
        { result := .error (.external m)
          renderEntriesCalls := later.2.renderEntriesCalls
          encoderCalls := []
          actionCalls := [actionArgs]
          rerenderResults := before.1 ++ later.1
          moduleIdCallbackCalls := [] }
      | .ok actionValue =>
        -- line 187: the promise held by `elementsPromise` at this point is awaited
        let awaited := before.2.elementsPromise
        let during := rerenderAll entries before.2 act.whileAwaiting
        match awaited.outcome with
        | .error m =>
          let later := rerenderAll entries during.2 act.afterwards
          { result := .error (.external m)
            renderEntriesCalls := later.2.renderEntriesCalls
            encoderCalls := []
            actionCalls := [actionArgs]
            rerenderResults := before.1 ++ during.1 ++ later.1
            moduleIdCallbackCalls := [] }
        | .ok elements =>
          -- line 188
          let finalized : Scope := { during.2 with rendered := true }
          let later := rerenderAll entries finalized act.afterwards
          if hasReservedKey elements then
            { result := .error .reservedKey
              renderEntriesCalls := later.2.renderEntriesCalls
              encoderCalls := []
              actionCalls := [actionArgs]
              rerenderResults := before.1 ++ during.1 ++ later.1
              moduleIdCallbackCalls := [] }
          else
            let tree := objSet (objAssign [] elements) "_value".toList actionValue
            { result := .ok (renderToReadableStream env bundlerConfig tree)
              renderEntriesCalls := later.2.renderEntriesCalls
              encoderCalls := [tree]
              actionCalls := [actionArgs]
              rerenderResults := before.1 ++ during.1 ++ later.1
              moduleIdCallbackCalls := [] }

/-- Lines 200-203: the body buffered into a string, `''` when there is no body. -/
def readBody (body : Option BodyStream) : Except JsError Str :=
  match body with
  | some stream => streamToString stream
  | none => .ok []

/-- Lines 199-210: the request body read and decoded into the action's arguments. -/
def decodeActionArgs (env : Env) (body : Option BodyStream) (contentType : Option Str) :
    Except JsError (List JsVal) :=
  match readBody body with
  | .error e => .error e
  | .ok bodyStr =>
    if (contentType.map (fun ct => startsWith ct "multipart/form-data".toList)).getD false then
      match parseFormData bodyStr (contentType.getD []) with
      | .error e => .error e
      | .ok formData => liftExt (env.decodeReply (.form formData))
    else if bodyStr ≠ [] then liftExt (env.decodeReply (.text bodyStr))
    else .ok []

/-- Line 219: `name ? mod[name] || mod : mod`. -/
def selectAction (mod : ServerReference) (name : Option Str) : Callee :=
  match name with
  | some (c :: cs) => (mod.prop (c :: cs)).getD mod.self
  | _ => mod.self

/-- Embeds `renderRsc` (lines 82-225). `args.moduleIdCallback` is not read anywhere
in the function, so no run ever calls it. -/
def renderRsc (env : Env) (args : RenderRscArgs) (opts : RenderRscOpts) : Run :=
  let bundlerConfig := bundlerConfigGet env.decodeURI opts.isExporting opts.resolveClientEntry
  match args.method with
  | .POST =>
    match liftExt (env.decodeURIComponent args.input) with
    | .error e => Run.failed e
    | .ok rsfId =>
      match decodeActionArgs env args.body args.contentType with
      | .error e => Run.failed e
      | .ok actionArgs =>
        let name := (jsSplit rsfId "#".toList).get? 1
        match env.getServerReference rsfId with
        | none => Run.failed (.serverActionNotFound rsfId env.getDebugDescription)
        | some mod =>
          renderWithContextWithAction env opts.entries bundlerConfig args.context
            (selectAction mod name) actionArgs
  | .GET =>
    renderWithContext env opts.entries bundlerConfig args.context args.input args.searchParams

/-! ## `getBuildConfig` (lines 262-311) -/

/-- Embeds `idSet.add(id)`. -/
def setAdd (idSet : List Str) (id : Str) : List Str :=
  if idSet.contains id then idSet else idSet ++ [id]

/-- The callback of line 288, which adds the `id` of the descriptor it
receives to `idSet`, as an update of the id set. -/
def collectorCallback : ModuleDescriptor → List Str → List Str :=
  fun module idSet => setAdd idSet module.id

/-- The first argument of the `renderRsc` call of lines 281-294. -/
def collectorArgs (input : Str) : RenderRscArgs :=
  { input := input, searchParams := [], method := .GET, context := none, body := none,
    contentType := none, moduleIdCallback := some collectorCallback }

/-- The second argument of the `renderRsc` call of lines 281-294. -/
def collectorOpts (entries : Entries) : RenderRscOpts :=
  { isExporting := true, entries := entries, resolveClientEntry := none }

/-- Embeds `unstable_collectClientModules` (lines 279-307). The id set is what the
calls of `moduleIdCallback` made by the render leave in it. -/
def unstable_collectClientModules (env : Env) (entries : Entries) (input : Str) :
    Except JsError (List Str) :=
  let run := renderRsc env (collectorArgs input) (collectorOpts entries)
  match run.result with
  | .error e => .error e
  | .ok readable =>
    let idSet := run.moduleIdCallbackCalls.foldl (fun acc module => collectorCallback module acc) []
    -- `readable.pipeTo(writable)`: `abort(reason)` rejects, `close()` resolves
    match readable.failure with
    | some reason => .error (.external reason)
    | none => .ok idSet

/-- What a call of the exported `getBuildConfig` does: the outcome of the
promise it returns and the runs of `renderRsc` it caused, in call order. -/
structure BuildRun where
  result : Except JsError (List JsVal)
  renders : List Run

/-- Line 309: the hook runs with `unstable_collectClientModules` as its
argument; every call it makes to the collector performs the render of lines
281-294, which is logged. -/
def runBuildHook (env : Env) (entries : Entries) : BuildHook → BuildRun
  | .done output => { result := output, renders := [] }
  | .collect input next =>
    let rest := runBuildHook env entries (next (unstable_collectClientModules env entries input))
    { result := rest.result
      renders := renderRsc env (collectorArgs input) (collectorOpts entries) :: rest.renders }

/-- Embeds `getBuildConfig` (lines 262-311). -/
def getBuildConfig (env : Env) (entries : Entries) : BuildRun :=
  match entries.getBuildConfig with
  | none => { result := .ok [], renders := [] }
  | some hook => runBuildHook env entries hook

/-! ## Specification-side definitions -/

/-- The substring of `s` after its first `#`; empty when `s` has no `#`. -/
def afterFirstHash (s : Str) : Str := (s.dropWhile (fun c => c != '#')).drop 1

/-- The part of `s` before its first `#`; all of `s` when it has no `#`. -/
def beforeFirstHash (s : Str) : Str := s.takeWhile (fun c => c != '#')

/-- The identity, as a URI decoder that never throws. -/
def decodeIdentity : Str → Ext Str := fun s => .ok s

/-- The error a run fails with, `none` when it returns a stream. -/
def Run.error? (r : Run) : Option JsError :=
  match r.result with
  | .error e => some e
  | .ok _ => none

/-- The options `rerender` passes to the engine for a call (line 177). -/
def rerenderOpts (entries : Entries) (call : RerenderCall) : RenderOpts :=
  { searchParams := call.searchParams.getD [], buildConfig := entries.buildConfig }

/-- The outcomes of the promises the engine returns for a sequence of
`rerender` calls, the first of which follows `n` earlier invocations. -/
def renderOutcomes (entries : Entries) : Nat → List RerenderCall → List (Ext (Option Elements))
  | _, [] => []
  | n, call :: calls =>
    (entries.renderEntries n call.input (rerenderOpts entries call)).outcome
      :: renderOutcomes entries (n + 1) calls

/-- The promise held by `elementsPromise` after a sequence of `rerender`
calls made on a fresh scope. -/
def mergedElements (entries : Entries) (calls : List RerenderCall) : Promise Elements :=
  (rerenderAll entries Scope.initial calls).2.elementsPromise

/-- A mapping overwritten by a render result: the result's value on the keys
it has, the old value elsewhere; a `null` result changes nothing. -/
def overwrite (m : Str → Option JsVal) (r : Option Elements) : Str → Option JsVal :=
  fun k =>
    match r.bind (fun o => objGet o k) with
    | some v => some v
    | none => m k

/-- The left-to-right fold of a list of render results, from the empty mapping. -/
def foldRenders (rs : List (Option Elements)) : Str → Option JsVal :=
  rs.foldl overwrite (fun _ => none)

/-- The merge performed by the callback of lines 178-182, folded over a list
of render results. -/
def mergeAll (acc : Elements) (rs : List (Option Elements)) : Elements :=
  rs.foldl (fun a r => objAssignNullable (objAssign [] a) r) acc

/-! ## A concrete deployment, used to exercise the theorems -/

/-- A sample rendering engine: entry `a` renders the slots `x` and `y` and
settles late, entry `b` renders the slots `y` and `z` and settles early,
`index` renders one slot, `reserved` renders a slot whose key starts with `_`,
and every other input has no component. -/
def demoRenderEntries (_n : Nat) (input : Str) (_opts : RenderOpts) : Promise (Option Elements) :=
  if input = "a".toList then
    ⟨5, .ok (some [("x".toList, ⟨"a.x".toList⟩), ("y".toList, ⟨"a.y".toList⟩)])⟩
  else if input = "b".toList then
    ⟨1, .ok (some [("y".toList, ⟨"b.y".toList⟩), ("z".toList, ⟨"b.z".toList⟩)])⟩
  else if input = "index".toList then
    ⟨0, .ok (some [("root".toList, ⟨"page".toList⟩)])⟩
  else if input = "reserved".toList then
    ⟨0, .ok (some [("_slot".toList, ⟨"hidden".toList⟩)])⟩
  else ⟨0, .ok none⟩

/-- The sample entries module, without a `getBuildConfig` hook. -/
def demoEntries : Entries :=
  { renderEntries := demoRenderEntries, buildConfig := none, getBuildConfig := none }

/-- A sample action: it rerenders `a`, then `b`, returns `done`, and work it
left behind calls `rerender` once more after the scope was finalized. -/
def demoAction : Action := fun _ _ =>
  { beforeSettle := [⟨"a".toList, none⟩, ⟨"b".toList, none⟩]
    outcome := .ok ⟨"done".toList⟩
    whileAwaiting := []
    afterwards := [⟨"a".toList, none⟩] }

/-- A sample action that rerenders the entry with the reserved key. -/
def reservedAction : Action := fun _ _ =>
  { beforeSettle := [⟨"reserved".toList, none⟩]
    outcome := .ok ⟨"done".toList⟩
    whileAwaiting := []
    afterwards := [] }

/-- A sample action that never rerenders. -/
def plainAction : Action := fun _ _ =>
  { beforeSettle := [], outcome := .ok ⟨"done".toList⟩, whileAwaiting := [], afterwards := [] }

/-- The sample server-reference table. -/
def demoServerReference (id : Str) : Option ServerReference :=
  if id = "actions.js#update".toList then
    some { self := some demoAction, prop := fun _ => none }
  else if id = "actions.js#reserved".toList then
    some { self := some reservedAction, prop := fun _ => none }
  else if id = "actions.js#plain".toList then
    some { self := some plainAction, prop := fun _ => none }
  else none

/-- The sample collaborators: the argument decoder yields one argument for a
text body and one per entry of a form, and the encoder reads one client
reference for every tree. -/
def demoEnv : Env :=
  { decodeURI := decodeIdentity
    decodeURIComponent := decodeIdentity
    decodeReply := fun body =>
      match body with
      | .text s => .ok [⟨s⟩]
      | .form formData => .ok (formData.map (fun e => ⟨e.1⟩))
    getServerReference := demoServerReference
    getDebugDescription := "known: actions.js".toList
    clientReferences := fun _ => ["/app/Button.js#default".toList]
    streamFailure := fun _ => none }

/-- A GET request for `input`. -/
def getRequest (input : Str) : RenderRscArgs :=
  { input := input, searchParams := [], method := .GET, context := none, body := none,
    contentType := none, moduleIdCallback := none }

/-- A POST request for the action `input`. -/
def postRequest (input : Str) (body : Option BodyStream) (contentType : Option Str) :
    RenderRscArgs :=
  { input := input, searchParams := [], method := .POST, context := none, body := body,
    contentType := contentType, moduleIdCallback := none }

/-- Serving options over the sample entries, in export mode without a resolver. -/
def demoOpts : RenderRscOpts :=
  { isExporting := true, entries := demoEntries, resolveClientEntry := none }

/-- The spec's multipart example: a field `x` with value `42` and a file field
`f`, file name `a.txt`, media type `text/plain`, content `hi`. -/
def exampleMultipartBody : Str :=
  ("--B\r\nContent-Disposition: form-data; name=\"x\"\r\n\r\n42\r\n" ++
   "--B\r\nContent-Disposition: form-data; name=\"f\"; filename=\"a.txt\"\r\n" ++
   "Content-Type: text/plain\r\n\r\nhi\r\n--B--\r\n").toList

/-- The content type announcing the boundary `B`. -/
def exampleContentType : Str := "multipart/form-data; boundary=B".toList

/-- A multipart body whose only part names a field but has no blank line
after its headers. -/
def truncatedMultipartBody : BodyStream :=
  { reads := [.bytes "--B\r\nContent-Disposition: form-data; name=\"x\"".toList]
    failure := none
    flushed := [] }

/-- Collaborators as in `demoEnv`, except that the argument decoder rejects a
form that has no field `0`, as `decodeReply` of the React server package
does: the root of a reply is its field `0`, and a reply without it is closed
with the error `Connection closed.`. -/
def strictDecoderEnv : Env :=
  { demoEnv with
    decodeReply := fun body =>
      match body with
      | .text s => .ok [⟨s⟩]
      | .form formData =>
        if (formData.map Prod.fst).contains "0".toList then .ok (formData.map (fun e => ⟨e.1⟩))
        else .error "Connection closed.".toList }

/-- What `bundlerConfig` returned for each encoded id the encoder read during
a run; empty when the run did not reach the encoder. -/
def Run.resolved (r : Run) : List (Str × Except JsError (Option ModuleDescriptor)) :=
  match r.result with
  | .ok stream => stream.resolved
  | .error _ => []

/-! ## `getSsrConfig` (lines 327-356) -/

/-- The object returned by the `get` trap of the `bundlerConfig` that
`getSsrConfig` builds (lines 344-349). Its `id` is the value returned by
`resolveClientEntry`, an object with the fields `id` and `url` (line 68), and
its `chunks` is the array holding that one value. -/
structure SsrModuleDescriptor where
  id : ResolvedEntry
  chunks : List ResolvedEntry
  name : Str
  async : Bool
  deriving DecidableEq, Repr

/-- The `get` trap of the `bundlerConfig` of `getSsrConfig` (lines 344-349). -/
def ssrBundlerConfigGet (resolveClientEntry : ResolveClientEntry) (encodedId : Str) :
    SsrModuleDescriptor :=
  let parts := jsSplit encodedId "#".toList
  let file := parts.headD []
  let name := (parts.get? 1).getD []
  let id := resolveClientEntry file
  { id := id, chunks := [id], name := name, async := true }

/-- A JavaScript value held by the `id` or the `chunks` field of a descriptor. -/
inductive FieldValue where
  /-- A string. -/
  | string (s : Str)
  /-- An array of strings. -/
  | strings (items : List Str)
  /-- An object with the fields `id` and `url`. -/
  | entry (e : ResolvedEntry)
  /-- An array of such objects. -/
  | entries (items : List ResolvedEntry)
  deriving DecidableEq, Repr

/-- A descriptor as the JavaScript object the encoder receives. -/
structure DescriptorFields where
  id : FieldValue
  chunks : FieldValue
  name : Str
  async : Bool
  deriving DecidableEq, Repr

/-- The object denoted by a descriptor of `renderRsc`. -/
def ModuleDescriptor.fields (d : ModuleDescriptor) : DescriptorFields :=
  { id := .string d.id, chunks := .strings d.chunks, name := d.name, async := d.async }

/-- The object denoted by a descriptor of `getSsrConfig`. -/
def SsrModuleDescriptor.fields (d : SsrModuleDescriptor) : DescriptorFields :=
  { id := .entry d.id, chunks := .entries d.chunks, name := d.name, async := d.async }

/-! ## `MetroServerError` (`build/rsc/patchFetch.js`, lines 20-31) -/

/-- The value of a property of an error object or of an error payload. -/
inductive PropValue where
  | undefined
  | string (s : Str)
  | other (v : JsVal)
  deriving DecidableEq, Repr

/-- An error payload, as the constructor reads it. Property values are data:
reading or assigning one runs no code of the payload (no getter, setter or
proxy), as for every object parsed from JSON. -/
structure ErrorPayload where
  /-- The enumerable string-keyed properties that `for (const key in errorObject)`
  visits, own and inherited, each with the value `errorObject[key]` reads. -/
  enumerable : Obj PropValue
  /-- The value of `errorObject.message` when `message` is not one of those
  properties (a property that is not enumerable, as on an `Error` instance);
  `undefined` when there is none. -/
  hiddenMessage : PropValue

/-- Embeds `errorObject.message`. -/
def ErrorPayload.message (errorObject : ErrorPayload) : PropValue :=
  match objGet errorObject.enumerable "message".toList with
  | some v => v
  | none => errorObject.hiddenMessage

/-- An error object: its own properties, and the value handed to the
`__proto__` setter if an assignment reached it (that value replaces the
prototype when it is an object or `null`, and is ignored otherwise). -/
structure ErrorObject where
  own : Obj PropValue
  protoAssigned : Option PropValue
  deriving DecidableEq, Repr

/-- The own property `message` that `super(message)` defines: none for
`undefined`, the argument converted to a string otherwise. `toStr` is the
string conversion of the values that are neither `undefined` nor strings. -/
def superMessage (toStr : JsVal → Str) (message : PropValue) : Obj PropValue :=
  match message with
  | .undefined => []
  | .string s => [("message".toList, .string s)]
  | .other v => [("message".toList, .string (toStr v))]

/-- The assignment `this[key] = value` of line 28 on the own properties of the
error. No own property is created for the key `__proto__`: that assignment
goes to the setter inherited from `Object.prototype`. Every other key is a
writable data property of the error or of its prototypes (or is absent), so the
assignment defines or overwrites an own property. -/
def assignKey (this : Obj PropValue) (key : Str) (value : PropValue) : Obj PropValue :=
  if key = "__proto__".toList then this else objSet this key value

/-- The object built by `new MetroServerError(errorObject, url)` (lines 20-31):
`super(errorObject.message)` defines `message` unless the argument is
`undefined`; the class fields define `url` and `code`; the constructor body
assigns `url` and `name` and then assigns every key that `for...in` visits. -/
def MetroServerError.create (toStr : JsVal → Str) (errorObject : ErrorPayload)
    (url : PropValue) : ErrorObject :=
  let afterSuper := superMessage toStr errorObject.message
  let afterFields :=
    objSet (objSet afterSuper "url".toList .undefined) "code".toList
      (.string "METRO_SERVER_ERROR".toList)
  let afterUrl := objSet afterFields "url".toList url
  let afterName := objSet afterUrl "name".toList (.string "MetroServerError".toList)
  { own := (objKeys errorObject.enumerable).foldl
      (fun this key =>
        assignKey this key ((objGet errorObject.enumerable key).getD .undefined)) afterName
    protoAssigned :=
      if (objKeys errorObject.enumerable).contains "__proto__".toList then
        objGet errorObject.enumerable "__proto__".toList
      else none }

/-! ## Further specification-side definitions and sample data -/

/-- A hexadecimal digit: `0-9`, `a-f` or `A-F`. -/
def isHexDigit (c : Char) : Bool :=
  ('0'.toNat ≤ c.toNat && c.toNat ≤ '9'.toNat) ||
  ('a'.toNat ≤ c.toNat && c.toNat ≤ 'f'.toNat) ||
  ('A'.toNat ≤ c.toNat && c.toNat ≤ 'F'.toNat)

/-- The string `s` holds, at some position, 40 consecutive characters of
`0-9`, `a-z`, `A-Z` immediately followed by `#`. -/
def HasActionPattern (s : Str) : Prop :=
  ∃ pre run rest, s = pre ++ (run ++ '#' :: rest) ∧ run.length = 40 ∧ ∀ c ∈ run, isAlnum c = true

/-- A sample resolver callback: the module id is the path prefixed by `m:` and
the only chunk is the path under `/bundles`. -/
def demoResolve : ResolveClientEntry := fun path =>
  { id := "m:".toList ++ path, url := ["/bundles".toList ++ path] }

/-- An encoded id made of forty letters `g`, then `#run`. -/
def lettersId : Str := List.replicate 40 'g' ++ "#run".toList

/-- An encoded id made of forty letters `Z`, then `#default`. -/
def capitalsId : Str := List.replicate 40 'Z' ++ "#default".toList

/-- An encoded id made of the directory `lib/`, forty hexadecimal digits, then `#run`. -/
def nestedHashId : Str :=
  "lib/".toList ++ ("0123456789abcdef0123456789abcdef01234567".toList ++ "#run".toList)

/-- A sample action: it rerenders `a` and returns `done`; work it left running
calls `rerender("b")` while the merge of `a` is awaited at line 187. -/
def lateAction : Action := fun _ _ =>
  { beforeSettle := [⟨"a".toList, none⟩]
    outcome := .ok ⟨"done".toList⟩
    whileAwaiting := [⟨"b".toList, none⟩]
    afterwards := [] }

/-- A multipart body with one text field `note` whose value has two
paragraphs separated by a blank line. -/
def twoParagraphBody : Str :=
  ("--B\r\nContent-Disposition: form-data; name=\"note\"\r\n\r\n" ++
   "line1\r\n\r\nline2\r\n--B--\r\n").toList

/-- The sample entries with every render settling ten instants later. -/
def slowEntries : Entries :=
  { demoEntries with
    renderEntries := fun n input opts =>
      ⟨(demoRenderEntries n input opts).settledAt + 10, (demoRenderEntries n input opts).outcome⟩ }

/-- The sample entries with a `getBuildConfig` hook that collects the modules
of `index` and lists them in the manifest. -/
def hookedEntries : Entries :=
  { demoEntries with
    getBuildConfig := some (.collect "index".toList (fun collected =>
      match collected with
      | .ok ids => .done (.ok (ids.map (fun id => ⟨id⟩)))
      | .error e => .done (.error e))) }

/-- The value a hook produces when its calls to the collector are answered
by `collector`. -/
def BuildHook.output (collector : Str → Except JsError (List Str)) :
    BuildHook → Except JsError (List JsVal)
  | .done output => output
  | .collect input next => BuildHook.output collector (next (collector input))

/-- The inputs on which a hook calls the collector, in call order, when its
calls are answered by `collector`. -/
def BuildHook.requests (collector : Str → Except JsError (List Str)) : BuildHook → List Str
  | .done _ => []
  | .collect input next => input :: BuildHook.requests collector (next (collector input))

/-- An error payload that carries its own `code`. -/
def codedPayload : ErrorPayload :=
  { enumerable :=
      [("message".toList, .string "boom".toList), ("code".toList, .string "E_CUSTOM".toList)]
    hiddenMessage := .undefined }

/-- An error payload with a message and a list of diagnostics. -/
def plainPayload : ErrorPayload :=
  { enumerable :=
      [("message".toList, .string "boom".toList),
       ("errors".toList, .other ⟨"diagnostics".toList⟩)]
    hiddenMessage := .undefined }

/-- An error payload parsed from a JSON text that has the member `__proto__`. -/
def protoPayload : ErrorPayload :=
  { enumerable :=
      [("message".toList, .string "boom".toList), ("__proto__".toList, .string "x".toList)]
    hiddenMessage := .undefined }

/-- A sample string conversion of the opaque values. -/
def demoToString : JsVal → Str := fun v => v.label

/-- A sample URI decoder: it turns every `%20` into a space and never throws. -/
def decodeSpaces : Str → Ext Str
  | [] => .ok []
  | '%' :: '2' :: '0' :: rest => (decodeSpaces rest).map (fun s => ' ' :: s)
  | c :: rest => (decodeSpaces rest).map (fun s => c :: s)

/-- Forty hexadecimal digits. -/
def sampleDigits : Str := "0123456789abcdef0123456789abcdef01234567".toList

end RscRenderer

/-! # Theorems -/

namespace RscRenderer

/-! ## Strings and objects -/

theorem splitGo_hash (s : Str) :
    splitGo ['#'] 0 s =
      beforeFirstHash s :: (if '#' ∈ s then splitGo ['#'] 0 (afterFirstHash s) else []) := by
  induction s with
  | nil => simp [splitGo, beforeFirstHash]
  | cons c rest ih =>
    by_cases hc : c = '#'
    · subst hc
      simp [splitGo, beforeFirstHash, afterFirstHash, List.isPrefixOf]
    · have hc2 : ('#' = c) = False := by
        simp only [eq_iff_iff, iff_false]; exact fun h => hc h.symm
      simp only [splitGo, List.isPrefixOf, beforeFirstHash, afterFirstHash] at ih ⊢
      simp [hc, hc2, ih]

theorem jsSplit_hash (s : Str) : jsSplit s "#".toList = splitGo ['#'] 0 s := by
  have h : "#".toList = ['#'] := rfl
  simp [jsSplit, h]

theorem splitGo_hash_head (s : Str) : (splitGo ['#'] 0 s).head? = some (beforeFirstHash s) := by
  rw [splitGo_hash]; rfl

theorem afterFirstHash_of_not_mem (s : Str) (h : '#' ∉ s) : afterFirstHash s = [] := by
  induction s with
  | nil => rfl
  | cons c rest ih =>
    simp only [List.mem_cons, not_or] at h
    have hc : (c != '#') = true := by
      simp only [bne_iff_ne, ne_eq]; exact fun e => h.1 e.symm
    simp only [afterFirstHash] at ih ⊢
    have e : List.dropWhile (fun c => c != '#') (c :: rest)
        = List.dropWhile (fun c => c != '#') rest := by
      simp only [List.dropWhile, hc]
    rw [e]
    exact ih h.2

theorem beforeFirstHash_of_not_mem (s : Str) (h : '#' ∉ s) : beforeFirstHash s = s := by
  induction s with
  | nil => rfl
  | cons c rest ih =>
    simp only [List.mem_cons, not_or] at h
    have hc : (c != '#') = true := by
      simp only [bne_iff_ne, ne_eq]; exact fun e => h.1 e.symm
    simp only [beforeFirstHash] at ih ⊢
    simp only [List.takeWhile, hc, ih h.2]

/-- The second piece of `encodedId.split('#')`, defaulted to the empty string. -/
theorem split_name (s : Str) :
    ((jsSplit s "#".toList).get? 1).getD [] = beforeFirstHash (afterFirstHash s) := by
  rw [jsSplit_hash, splitGo_hash]
  by_cases h : '#' ∈ s
  · simp only [h, if_true, List.get?_cons_succ]
    have := splitGo_hash_head (afterFirstHash s)
    rw [List.get?_zero, this]; rfl
  · simp [h, afterFirstHash_of_not_mem s h, beforeFirstHash]

/-! ## The module reference resolver -/

theorem bundlerConfigGet_name (decodeURI : Str → Ext Str) (isExporting : Bool)
    (resolveClientEntry : Option ResolveClientEntry) (encodedId : Str) (d : ModuleDescriptor)
    (h : bundlerConfigGet decodeURI isExporting resolveClientEntry encodedId = .ok (some d)) :
    d.name = ((jsSplit encodedId "#".toList).get? 1).getD [] := by
  unfold bundlerConfigGet at h
  simp only at h
  split at h
  · cases h; rfl
  · split at h
    · cases h
    · cases resolveClientEntry with
      | some r => cases h; rfl
      | none =>
        cases isExporting with
        | true => cases h; rfl
        | false => cases h

/-- C3, as stated, fails: for the encoded id `a#b#c` in export mode the module
resolver returns a descriptor whose name is `b`, while the substring of the id
after its first `#` is `b#c`. -/
theorem descriptor_name_counterexample :
    bundlerConfigGet decodeIdentity true none "a#b#c".toList
        = .ok (some { id := "a".toList, chunks := ["chunk:a".toList], name := "b".toList,
                      async := true })
      ∧ afterFirstHash "a#b#c".toList = "b#c".toList
      ∧ "b".toList ≠ "b#c".toList := by
  refine ⟨rfl, rfl, by decide⟩

/-- C3, amended: whenever the module resolver returns a descriptor, its name is
the part of the encoded id between the first `#` and the next `#` (or the end
of the id); it is the whole substring after the first `#` when that substring
has no further `#`, and the empty string when the id has no `#`. -/
theorem descriptor_name (decodeURI : Str → Ext Str) (isExporting : Bool)
    (resolveClientEntry : Option ResolveClientEntry) (encodedId : Str) (d : ModuleDescriptor)
    (h : bundlerConfigGet decodeURI isExporting resolveClientEntry encodedId = .ok (some d)) :
    d.name = beforeFirstHash (afterFirstHash encodedId)
      ∧ ('#' ∉ afterFirstHash encodedId → d.name = afterFirstHash encodedId)
      ∧ ('#' ∉ encodedId → d.name = []) := by
  have hn := bundlerConfigGet_name decodeURI isExporting resolveClientEntry encodedId d h
  rw [split_name] at hn
  refine ⟨hn, fun h1 => ?_, fun h2 => ?_⟩
  · rw [hn, beforeFirstHash_of_not_mem _ h1]
  · rw [hn, afterFirstHash_of_not_mem _ h2]; rfl

/-- The amended C3 at the id `/app/Button.js#default`, resolved in export mode. -/
theorem descriptor_name_witness :
    bundlerConfigGet decodeIdentity true none "/app/Button.js#default".toList
        = .ok (some { id := "/app/Button.js".toList, chunks := ["chunk:/app/Button.js".toList],
                      name := "default".toList, async := true })
      ∧ "default".toList = beforeFirstHash (afterFirstHash "/app/Button.js#default".toList) :=
  ⟨rfl, (descriptor_name decodeIdentity true none "/app/Button.js#default".toList
    { id := "/app/Button.js".toList, chunks := ["chunk:/app/Button.js".toList],
      name := "default".toList, async := true } rfl).1⟩

/-! ## Objects -/

theorem objGet_cons {β : Type} (k2 : Str) (v2 : β) (rest : Obj β) (k1 : Str) :
    objGet ((k2, v2) :: rest) k1
      = match objGet rest k1 with
        | some w => some w
        | none => if k2 = k1 then some v2 else none := rfl

theorem objGet_append_single {β : Type} (o : Obj β) (k k1 : Str) (v : β) :
    objGet (o ++ [(k, v)]) k1 = if k1 = k then some v else objGet o k1 := by
  induction o with
  | nil =>
    by_cases h : k1 = k
    · subst h; simp [objGet]
    · have h2 : ¬ k = k1 := fun e => h e.symm
      simp [objGet, h, h2]
  | cons e rest ih =>
    obtain ⟨k2, v2⟩ := e
    rw [List.cons_append, objGet_cons, ih, objGet_cons]
    by_cases h : k1 = k
    · simp only [h, if_true]
    · simp only [h, if_false]

theorem objGet_map_set {β : Type} (o : Obj β) (k k1 : Str) (v : β) :
    objGet (o.map (fun e => if e.1 = k then (k, v) else e)) k1
      = if k1 = k then (if k ∈ objKeys o then some v else none) else objGet o k1 := by
  induction o with
  | nil => simp [objGet, objKeys]
  | cons e rest ih =>
    obtain ⟨k2, v2⟩ := e
    rw [List.map_cons]
    by_cases h2 : k2 = k
    · subst h2
      rw [if_pos rfl, objGet_cons, ih, objGet_cons]
      by_cases h : k1 = k2
      · subst h
        simp only [if_true, objKeys, List.map_cons, List.mem_cons, true_or]
        by_cases hm : k1 ∈ List.map Prod.fst rest <;> simp [hm]
      · have h3 : ¬ k2 = k1 := fun e => h e.symm
        simp only [h, h3, if_false]
    · rw [if_neg h2, objGet_cons, ih, objGet_cons]
      by_cases h : k1 = k
      · subst h
        have h3 : ¬ k1 = k2 := fun e => h2 e.symm
        simp only [if_true, objKeys, List.map_cons, List.mem_cons, h2, h3, if_false, false_or]
        by_cases hm : k1 ∈ List.map Prod.fst rest <;> simp [hm]
      · simp only [h, if_false]

theorem objGet_objSet {β : Type} (o : Obj β) (k k1 : Str) (v : β) :
    objGet (objSet o k v) k1 = if k1 = k then some v else objGet o k1 := by
  unfold objSet
  split
  · rename_i hc
    have hm : k ∈ objKeys o := by simpa using hc
    rw [objGet_map_set]; simp [hm]
  · exact objGet_append_single o k k1 v

theorem objGet_objAssign {β : Type} (target src : Obj β) (k : Str) :
    objGet (objAssign target src) k
      = match objGet src k with
        | some w => some w
        | none => objGet target k := by
  induction src generalizing target with
  | nil => simp [objAssign, objGet]
  | cons e rest ih =>
    obtain ⟨k2, v2⟩ := e
    have e1 : objAssign target ((k2, v2) :: rest) = objAssign (objSet target k2 v2) rest := rfl
    rw [e1, ih, objGet_objSet]
    simp only [objGet]
    cases objGet rest k with
    | some w => rfl
    | none =>
      by_cases h : k = k2
      · subst h; simp
      · have h2 : ¬ k2 = k := fun e => h e.symm
        simp [h, h2]

theorem objGet_objAssign_nil {β : Type} (src : Obj β) (k : Str) :
    objGet (objAssign [] src) k = objGet src k := by
  rw [objGet_objAssign]
  cases objGet src k <;> rfl

theorem objKeys_map_set {β : Type} (o : Obj β) (k : Str) (v : β) :
    objKeys (o.map (fun e => if e.1 = k then (k, v) else e)) = objKeys o := by
  induction o with
  | nil => rfl
  | cons e rest ih =>
    simp only [objKeys, List.map_cons] at ih ⊢
    rw [ih]
    by_cases h : e.1 = k
    · simp [h]
    · simp [h]

theorem mem_objKeys_objSet {β : Type} (o : Obj β) (k k1 : Str) (v : β) :
    k1 ∈ objKeys (objSet o k v) ↔ k1 ∈ objKeys o ∨ k1 = k := by
  unfold objSet
  split
  · rename_i hc
    have hm : k ∈ objKeys o := by simpa using hc
    rw [objKeys_map_set]
    constructor
    · exact fun h => Or.inl h
    · rintro (h | h)
      · exact h
      · rw [h]; exact hm
  · unfold objKeys
    rw [List.map_append, List.mem_append]
    simp only [List.map_cons, List.map_nil, List.mem_singleton]

theorem mem_objKeys_objAssign {β : Type} (target src : Obj β) (k : Str) :
    k ∈ objKeys (objAssign target src) ↔ k ∈ objKeys target ∨ k ∈ objKeys src := by
  induction src generalizing target with
  | nil =>
    have e0 : objAssign target ([] : Obj β) = target := rfl
    rw [e0]
    constructor
    · exact fun h => Or.inl h
    · rintro (h | h)
      · exact h
      · cases h
  | cons e rest ih =>
    have e1 : objAssign target (e :: rest) = objAssign (objSet target e.1 e.2) rest := rfl
    rw [e1, ih, mem_objKeys_objSet]
    unfold objKeys
    rw [List.map_cons, List.mem_cons]
    tauto

/-! ## The POST render scope -/

theorem rerender_rendered (entries : Entries) (s : Scope) (call : RerenderCall)
    (h : s.rendered = true) : rerender entries s call = (.error .alreadyRendered, s) := by
  simp [rerender, h]

theorem rerender_not_rendered (entries : Entries) (s : Scope) (call : RerenderCall)
    (h : s.rendered = false) :
    rerender entries s call =
      (.ok (),
       { elementsPromise :=
           (Promise.all2 s.elementsPromise
             (entries.renderEntries s.renderEntriesCalls.length call.input
               (rerenderOpts entries call))).andThen
             (fun r => objAssignNullable (objAssign [] r.1) r.2)
         rendered := false
         renderEntriesCalls := s.renderEntriesCalls ++ [(call.input, rerenderOpts entries call)] }) := by
  simp [rerender, h, rerenderOpts]

theorem rerenderAll_cons (entries : Entries) (s : Scope) (c : RerenderCall)
    (cs : List RerenderCall) :
    rerenderAll entries s (c :: cs)
      = ((rerender entries s c).1 :: (rerenderAll entries (rerender entries s c).2 cs).1,
         (rerenderAll entries (rerender entries s c).2 cs).2) := rfl

theorem rerenderAll_rendered (entries : Entries) (s : Scope) (calls : List RerenderCall)
    (h : s.rendered = true) :
    rerenderAll entries s calls = (calls.map (fun _ => .error .alreadyRendered), s) := by
  induction calls with
  | nil => rfl
  | cons c cs ih =>
    rw [rerenderAll_cons, rerender_rendered entries s c h, ih, List.map_cons]

theorem rerenderAll_not_rendered (entries : Entries) (s : Scope) (calls : List RerenderCall)
    (h : s.rendered = false) :
    (rerenderAll entries s calls).1 = calls.map (fun _ => .ok ())
      ∧ (rerenderAll entries s calls).2.rendered = false
      ∧ (rerenderAll entries s calls).2.renderEntriesCalls
          = s.renderEntriesCalls ++ calls.map (fun c => (c.input, rerenderOpts entries c)) := by
  induction calls generalizing s with
  | nil => simp [rerenderAll, h]
  | cons c cs ih =>
    have hs := rerender_not_rendered entries s c h
    obtain ⟨h1, h2, h3⟩ := ih (rerender entries s c).2 (by rw [hs])
    rw [rerenderAll_cons]
    refine ⟨?_, h2, ?_⟩
    · rw [h1, hs, List.map_cons]
    · rw [h3, hs, List.map_cons, List.append_assoc, List.singleton_append]

theorem rerenderAll_append (entries : Entries) (s : Scope) (xs ys : List RerenderCall) :
    rerenderAll entries s (xs ++ ys)
      = ((rerenderAll entries s xs).1 ++ (rerenderAll entries (rerenderAll entries s xs).2 ys).1,
         (rerenderAll entries (rerenderAll entries s xs).2 ys).2) := by
  induction xs generalizing s with
  | nil => rfl
  | cons c cs ih =>
    rw [List.cons_append, rerenderAll_cons, ih, rerenderAll_cons, List.cons_append]

theorem all2_andThen_ok {α β γ : Type} (p : Promise α) (q : Promise β) (f : α × β → γ)
    (a : α) (b : β) (hp : p.outcome = .ok a) (hq : q.outcome = .ok b) :
    ((Promise.all2 p q).andThen f).outcome = .ok (f (a, b)) := by
  simp [Promise.andThen, Promise.all2, hp, hq, Except.map]

/-- The promise chain after a sequence of accepted calls whose renders all
fulfil: it fulfils with the merge of the results in call order, whatever the
instants at which the individual renders settle. -/
theorem rerenderAll_elements (entries : Entries) (s : Scope) (calls : List RerenderCall)
    (acc : Elements) (rs : List (Option Elements))
    (h : s.rendered = false) (hacc : s.elementsPromise.outcome = .ok acc)
    (hrs : List.Forall₂ (fun o r => o = Except.ok r)
      (renderOutcomes entries s.renderEntriesCalls.length calls) rs) :
    (rerenderAll entries s calls).2.elementsPromise.outcome = .ok (mergeAll acc rs) := by
  induction calls generalizing s acc rs with
  | nil =>
    cases hrs
    simpa [rerenderAll, mergeAll] using hacc
  | cons c cs ih =>
    cases hrs with
    | cons hr hrest =>
      rename_i r rs1
      have hs := rerender_not_rendered entries s c h
      rw [rerenderAll_cons]
      have step := ih (rerender entries s c).2 (objAssignNullable (objAssign [] acc) r) rs1
        (by rw [hs])
        (by rw [hs]; exact all2_andThen_ok _ _ _ acc r hacc hr)
        (by rw [hs]; simpa using hrest)
      exact step

theorem objGet_mergeStep (acc : Elements) (r : Option Elements) :
    (fun k => objGet (objAssignNullable (objAssign [] acc) r) k) = overwrite (objGet acc) r := by
  funext k
  cases r with
  | none => simp [objAssignNullable, overwrite, objGet_objAssign_nil]
  | some o =>
    simp only [objAssignNullable, overwrite, Option.bind, objGet_objAssign, objGet_objAssign_nil]
    cases objGet o k with
    | some w => rfl
    | none => cases objGet acc k <;> rfl

theorem objGet_mergeAll (acc : Elements) (rs : List (Option Elements)) :
    (fun k => objGet (mergeAll acc rs) k) = rs.foldl overwrite (objGet acc) := by
  induction rs generalizing acc with
  | nil => rfl
  | cons r rs ih =>
    have e : mergeAll acc (r :: rs) = mergeAll (objAssignNullable (objAssign [] acc) r) rs := rfl
    rw [e, ih, List.foldl_cons, ← objGet_mergeStep]

theorem objGet_mergeAll_nil (rs : List (Option Elements)) (k : Str) :
    objGet (mergeAll [] rs) k = foldRenders rs k := by
  have := congrFun (objGet_mergeAll [] rs) k
  simpa [foldRenders, objGet] using this

theorem mem_objKeys_mergeAll (acc : Elements) (rs : List (Option Elements)) (k : Str) :
    k ∈ objKeys (mergeAll acc rs) ↔ k ∈ objKeys acc ∨ ∃ o, some o ∈ rs ∧ k ∈ objKeys o := by
  induction rs generalizing acc with
  | nil => simp [mergeAll]
  | cons r rs ih =>
    have e : mergeAll acc (r :: rs) = mergeAll (objAssignNullable (objAssign [] acc) r) rs := rfl
    rw [e, ih]
    cases r with
    | none =>
      simp only [objAssignNullable, mem_objKeys_objAssign, List.mem_cons]
      constructor
      · rintro ((h | h) | ⟨o, ho, hk⟩)
        · cases h
        · exact Or.inl h
        · exact Or.inr ⟨o, Or.inr ho, hk⟩
      · rintro (h | ⟨o, ho | ho, hk⟩)
        · exact Or.inl (Or.inr h)
        · cases ho
        · exact Or.inr ⟨o, ho, hk⟩
    | some o1 =>
      simp only [objAssignNullable, mem_objKeys_objAssign, List.mem_cons]
      constructor
      · rintro (((h | h) | h) | ⟨o, ho, hk⟩)
        · cases h
        · exact Or.inl h
        · exact Or.inr ⟨o1, Or.inl rfl, h⟩
        · exact Or.inr ⟨o, Or.inr ho, hk⟩
      · rintro (h | ⟨o, ho | ho, hk⟩)
        · exact Or.inl (Or.inl (Or.inr h))
        · cases ho; exact Or.inl (Or.inr hk)
        · exact Or.inr ⟨o, ho, hk⟩

/-! ## `renderRsc` -/

theorem renderRsc_get (env : Env) (args : RenderRscArgs) (opts : RenderRscOpts)
    (hm : args.method = .GET) :
    renderRsc env args opts
      = renderWithContext env opts.entries
          (bundlerConfigGet env.decodeURI opts.isExporting opts.resolveClientEntry)
          args.context args.input args.searchParams := by
  simp [renderRsc, hm]

theorem renderRsc_post (env : Env) (args : RenderRscArgs) (opts : RenderRscOpts)
    (rsfId : Str) (actionArgs : List JsVal) (mod : ServerReference)
    (hm : args.method = .POST)
    (hid : env.decodeURIComponent args.input = .ok rsfId)
    (hargs : decodeActionArgs env args.body args.contentType = .ok actionArgs)
    (href : env.getServerReference rsfId = some mod) :
    renderRsc env args opts
      = renderWithContextWithAction env opts.entries
          (bundlerConfigGet env.decodeURI opts.isExporting opts.resolveClientEntry)
          args.context (selectAction mod ((jsSplit rsfId "#".toList).get? 1)) actionArgs := by
  simp [renderRsc, hm, hid, hargs, href, liftExt]

/-- A GET render whose engine fulfils with `r`. -/
theorem renderWithContext_fulfilled (env : Env) (entries : Entries)
    (bundlerConfig : Str → Except JsError (Option ModuleDescriptor))
    (context : Option (Obj JsVal)) (input : Str) (searchParams : SearchParams)
    (r : Option Elements)
    (h : (entries.renderEntries 0 input
      { searchParams := searchParams, buildConfig := entries.buildConfig }).outcome = .ok r) :
    renderWithContext env entries bundlerConfig context input searchParams
      = match r with
        | none =>
          { Run.failed (.noFunctionComponent input) with
            renderEntriesCalls :=
              [(input, { searchParams := searchParams, buildConfig := entries.buildConfig })] }
        | some elements =>
          if hasReservedKey elements then
            { Run.failed .reservedKey with
              renderEntriesCalls :=
                [(input, { searchParams := searchParams, buildConfig := entries.buildConfig })] }
          else
            { result := .ok (renderToReadableStream env bundlerConfig elements)
              renderEntriesCalls :=
                [(input, { searchParams := searchParams, buildConfig := entries.buildConfig })]
              encoderCalls := [elements]
              actionCalls := []
              rerenderResults := []
              moduleIdCallbackCalls := [] } := by
  unfold renderWithContext runWithRenderStore
  simp only [h, liftExt]
  cases r <;> rfl

/-- A POST render whose action returns `v` and whose awaited merge fulfils
with `elements`: the scope is finalized, and the tree is encoded unless a key
is reserved. -/
theorem renderWithContextWithAction_finalized (env : Env) (entries : Entries)
    (bundlerConfig : Str → Except JsError (Option ModuleDescriptor))
    (context : Option (Obj JsVal)) (fn : Action) (actionArgs : List JsVal)
    (v : JsVal) (elements : Elements)
    (hv : (fn (context.getD []) actionArgs).outcome = .ok v)
    (he : (mergedElements entries (fn (context.getD []) actionArgs).beforeSettle).outcome
      = .ok elements) :
    let act := fn (context.getD []) actionArgs
    let run := renderWithContextWithAction env entries bundlerConfig context (some fn) actionArgs
    let before := rerenderAll entries Scope.initial act.beforeSettle
    let during := rerenderAll entries before.2 act.whileAwaiting
    let later := rerenderAll entries { during.2 with rendered := true } act.afterwards
    let tree := objSet (objAssign [] elements) "_value".toList v
    run.result = (if hasReservedKey elements then .error .reservedKey
                  else .ok (renderToReadableStream env bundlerConfig tree))
      ∧ run.encoderCalls = (if hasReservedKey elements then [] else [tree])
      ∧ run.actionCalls = [actionArgs]
      ∧ run.rerenderResults = before.1 ++ during.1 ++ later.1
      ∧ run.renderEntriesCalls = later.2.renderEntriesCalls := by
  intro act run before during later tree
  have he2 : before.2.elementsPromise.outcome = .ok elements := he
  have hv2 : act.outcome = .ok v := hv
  have hrun : run = renderWithContextWithAction env entries bundlerConfig context (some fn)
    actionArgs := rfl
  unfold renderWithContextWithAction runWithRenderStore at hrun
  simp only [] at hrun
  rw [hv2] at hrun
  simp only [] at hrun
  rw [he2] at hrun
  simp only [] at hrun
  by_cases hk : hasReservedKey elements = true
  · rw [if_pos hk] at hrun
    simp only [hk, if_true]
    rw [hrun]
    exact ⟨rfl, rfl, rfl, rfl, rfl⟩
  · rw [if_neg hk] at hrun
    simp only [hk, if_false]
    rw [hrun]
    exact ⟨rfl, rfl, rfl, rfl, rfl⟩

theorem hasReservedKey_eq_false_iff (elements : Elements) :
    hasReservedKey elements = false
      ↔ ∀ k, k ∈ objKeys elements → startsWith k "_".toList = false := by
  unfold hasReservedKey
  rw [List.any_eq_false]
  constructor
  · intro h k hk
    simpa using h k hk
  · intro h k hk
    simpa using h k hk

theorem hasReservedKey_mergeAll (rs : List (Option Elements))
    (h : ∀ o, some o ∈ rs → hasReservedKey o = false) :
    hasReservedKey (mergeAll [] rs) = false := by
  rw [hasReservedKey_eq_false_iff]
  intro k hk
  rw [mem_objKeys_mergeAll] at hk
  rcases hk with hk | ⟨o, ho, hk⟩
  · cases hk
  · exact (hasReservedKey_eq_false_iff o).1 (h o ho) k hk

/-- C7: a GET request whose input makes the rendering engine yield `null`
fails, whatever the search parameters and the context, with the error whose
message is `No function component found at: ` followed by the input and whose
status code is 404, and the encoder is not called. -/
theorem get_null_entry_not_found (env : Env) (args : RenderRscArgs) (opts : RenderRscOpts)
    (hm : args.method = .GET)
    (hnull : (opts.entries.renderEntries 0 args.input
      { searchParams := args.searchParams, buildConfig := opts.entries.buildConfig }).outcome
        = .ok none) :
    ∃ e, (renderRsc env args opts).result = .error e
      ∧ e.message = "No function component found at: ".toList ++ args.input
      ∧ e.statusCode = some 404
      ∧ (renderRsc env args opts).encoderCalls = [] := by
  rw [renderRsc_get env args opts hm, renderWithContext_fulfilled _ _ _ _ _ _ none hnull]
  exact ⟨.noFunctionComponent args.input, rfl, rfl, rfl, rfl⟩

/-- C7 on the sample deployment: a GET of an input without a component. -/
theorem get_null_entry_not_found_witness :
    ∃ e, (renderRsc demoEnv (getRequest "nothing".toList) demoOpts).result = .error e
      ∧ e.message = "No function component found at: ".toList ++ "nothing".toList
      ∧ e.statusCode = some 404
      ∧ (renderRsc demoEnv (getRequest "nothing".toList) demoOpts).encoderCalls = [] :=
  get_null_entry_not_found demoEnv (getRequest "nothing".toList) demoOpts rfl rfl

/-- C5: a GET whose rendered tree has a key starting with `_`, and a POST whose
awaited merge of rerenders has such a key, fail with the `"_" prefix is
reserved` error without the encoder being called; when no key starts with `_`
the run does not fail with that error. -/
theorem reserved_key_rejected (env : Env) (args : RenderRscArgs) (opts : RenderRscOpts) :
    (∀ tree : Elements, args.method = .GET →
      (opts.entries.renderEntries 0 args.input
        { searchParams := args.searchParams, buildConfig := opts.entries.buildConfig }).outcome
          = .ok (some tree) →
      (hasReservedKey tree = true →
        (renderRsc env args opts).result = .error .reservedKey
          ∧ (renderRsc env args opts).encoderCalls = [])
      ∧ (hasReservedKey tree = false →
        (renderRsc env args opts).result ≠ .error .reservedKey))
    ∧ (∀ (rsfId : Str) (actionArgs : List JsVal) (mod : ServerReference) (fn : Action)
        (v : JsVal) (merged : Elements),
      args.method = .POST →
      env.decodeURIComponent args.input = .ok rsfId →
      decodeActionArgs env args.body args.contentType = .ok actionArgs →
      env.getServerReference rsfId = some mod →
      selectAction mod ((jsSplit rsfId "#".toList).get? 1) = some fn →
      (fn (args.context.getD []) actionArgs).outcome = .ok v →
      (mergedElements opts.entries (fn (args.context.getD []) actionArgs).beforeSettle).outcome
        = .ok merged →
      (hasReservedKey merged = true →
        (renderRsc env args opts).result = .error .reservedKey
          ∧ (renderRsc env args opts).encoderCalls = [])
      ∧ (hasReservedKey merged = false →
        (renderRsc env args opts).result ≠ .error .reservedKey)) := by
  constructor
  · intro tree hm htree
    rw [renderRsc_get env args opts hm, renderWithContext_fulfilled _ _ _ _ _ _ _ htree]
    constructor
    · intro hk
      simp only [hk, if_true]
      exact ⟨rfl, rfl⟩
    · intro hk
      simp only [hk]
      intro h
      cases h
  · intro rsfId actionArgs mod fn v merged hm hid hargs href hfn hv he
    rw [renderRsc_post env args opts rsfId actionArgs mod hm hid hargs href, hfn]
    obtain ⟨h1, h2, -⟩ := renderWithContextWithAction_finalized env opts.entries
      (bundlerConfigGet env.decodeURI opts.isExporting opts.resolveClientEntry)
      args.context fn actionArgs v merged hv he
    constructor
    · intro hk
      rw [h1, h2]
      simp only [hk, if_true, and_self]
    · intro hk
      rw [h1]
      simp only [hk]
      intro h
      cases h

/-- C5 on the sample deployment: the GET of the entry `reserved`, and the POST
of the action that rerenders it, both fail with the reserved-key error before
the encoder is reached. -/
theorem reserved_key_rejected_witness :
    ((renderRsc demoEnv (getRequest "reserved".toList) demoOpts).result = .error .reservedKey
      ∧ (renderRsc demoEnv (getRequest "reserved".toList) demoOpts).encoderCalls = [])
    ∧ ((renderRsc demoEnv (postRequest "actions.js#reserved".toList none none) demoOpts).result
          = .error .reservedKey
      ∧ (renderRsc demoEnv (postRequest "actions.js#reserved".toList none none)
          demoOpts).encoderCalls = []) :=
  ⟨((reserved_key_rejected demoEnv (getRequest "reserved".toList) demoOpts).1
      [("_slot".toList, ⟨"hidden".toList⟩)] rfl rfl).1 rfl,
   ((reserved_key_rejected demoEnv (postRequest "actions.js#reserved".toList none none)
      demoOpts).2 "actions.js#reserved".toList [] { self := some reservedAction, prop := fun _ => none }
      reservedAction ⟨"done".toList⟩ [("_slot".toList, ⟨"hidden".toList⟩)]
      rfl rfl rfl rfl rfl rfl rfl).1 rfl⟩

/-- C10: when the action returns `v` and the awaited merge of its rerenders
has no key starting with `_`, the encoder is handed one tree, whose keys are
those of the merge plus `_value`, which maps `_value` to `v` and agrees with
the merge on every other key; without any rerender the tree is `_value: v` alone. -/
theorem action_value_injected (env : Env) (entries : Entries)
    (bundlerConfig : Str → Except JsError (Option ModuleDescriptor))
    (context : Option (Obj JsVal)) (fn : Action) (actionArgs : List JsVal)
    (v : JsVal) (merged : Elements)
    (hv : (fn (context.getD []) actionArgs).outcome = .ok v)
    (he : (mergedElements entries (fn (context.getD []) actionArgs).beforeSettle).outcome
      = .ok merged)
    (hk : hasReservedKey merged = false) :
    ∃ tree,
      (renderWithContextWithAction env entries bundlerConfig context (some fn)
        actionArgs).encoderCalls = [tree]
      ∧ (∀ k, k ∈ objKeys tree ↔ k ∈ objKeys merged ∨ k = "_value".toList)
      ∧ objGet tree "_value".toList = some v
      ∧ (∀ k, k ≠ "_value".toList → objGet tree k = objGet merged k)
      ∧ ((fn (context.getD []) actionArgs).beforeSettle = [] →
          tree = [("_value".toList, v)]) := by
  obtain ⟨-, h2, -⟩ := renderWithContextWithAction_finalized env entries bundlerConfig
    context fn actionArgs v merged hv he
  refine ⟨objSet (objAssign [] merged) "_value".toList v, ?_, ?_, ?_, ?_, ?_⟩
  · rw [h2]; simp only [hk]; rfl
  · intro k
    rw [mem_objKeys_objSet, mem_objKeys_objAssign]
    constructor
    · rintro ((h | h) | h)
      · cases h
      · exact Or.inl h
      · exact Or.inr h
    · rintro (h | h)
      · exact Or.inl (Or.inr h)
      · exact Or.inr h
  · rw [objGet_objSet, if_pos rfl]
  · intro k hne
    rw [objGet_objSet, if_neg hne, objGet_objAssign_nil]
  · intro hnil
    rw [hnil] at he
    have hm : merged = [] := by
      have : (Except.ok [] : Ext Elements) = .ok merged := he
      cases this
      rfl
    rw [hm]
    rfl

/-- C10 on the sample deployment, for the action that never rerenders. -/
theorem action_value_injected_witness :
    ∃ tree,
      (renderWithContextWithAction demoEnv demoEntries
        (bundlerConfigGet decodeIdentity true none) none (some plainAction) []).encoderCalls
          = [tree]
      ∧ (∀ k, k ∈ objKeys tree ↔ k ∈ objKeys ([] : Elements) ∨ k = "_value".toList)
      ∧ objGet tree "_value".toList = some ⟨"done".toList⟩
      ∧ (∀ k, k ≠ "_value".toList → objGet tree k = objGet ([] : Elements) k)
      ∧ ((plainAction [] []).beforeSettle = [] → tree = [("_value".toList, ⟨"done".toList⟩)]) :=
  action_value_injected demoEnv demoEntries (bundlerConfigGet decodeIdentity true none) none
    plainAction [] ⟨"done".toList⟩ [] rfl rfl rfl

/-- C4: when the action calls `rerender` on a sequence of inputs before it
settles and the renders fulfil with `rs`, every tree handed to the encoder
agrees, on every key other than `_value`, with the left-to-right fold of `rs`
from the empty mapping, a later result overwriting an earlier one; and a tree
is handed over when no result has a key starting with `_`. Only the outcomes
of the render promises are constrained, not the instants at which they
settle, so the statement holds for every completion order. -/
theorem rerender_merge_in_call_order (env : Env) (entries : Entries)
    (bundlerConfig : Str → Except JsError (Option ModuleDescriptor))
    (context : Option (Obj JsVal)) (fn : Action) (actionArgs : List JsVal)
    (v : JsVal) (rs : List (Option Elements))
    (hv : (fn (context.getD []) actionArgs).outcome = .ok v)
    (hrs : List.Forall₂ (fun o r => o = Except.ok r)
      (renderOutcomes entries 0 (fn (context.getD []) actionArgs).beforeSettle) rs) :
    (∀ tree, tree ∈ (renderWithContextWithAction env entries bundlerConfig context (some fn)
        actionArgs).encoderCalls →
      ∀ k, k ≠ "_value".toList → objGet tree k = foldRenders rs k)
    ∧ ((∀ o, some o ∈ rs → hasReservedKey o = false) →
      ∃ tree, (renderWithContextWithAction env entries bundlerConfig context (some fn)
        actionArgs).encoderCalls = [tree]) := by
  have he : (mergedElements entries (fn (context.getD []) actionArgs).beforeSettle).outcome
      = .ok (mergeAll [] rs) :=
    rerenderAll_elements entries Scope.initial _ [] rs rfl rfl hrs
  obtain ⟨-, h2, -⟩ := renderWithContextWithAction_finalized env entries bundlerConfig
    context fn actionArgs v (mergeAll [] rs) hv he
  constructor
  · intro tree ht k hne
    rw [h2] at ht
    by_cases hk : hasReservedKey (mergeAll [] rs) = true
    · rw [if_pos hk] at ht
      cases ht
    · rw [if_neg hk, List.mem_singleton] at ht
      rw [ht, objGet_objSet, if_neg hne, objGet_objAssign_nil, objGet_mergeAll_nil]
  · intro hno
    have hk := hasReservedKey_mergeAll rs hno
    refine ⟨objSet (objAssign [] (mergeAll [] rs)) "_value".toList v, ?_⟩
    rw [h2]
    simp only [hk]
    rfl

/-- C4 on the sample deployment: `rerender("a")` then `rerender("b")`, where the
render of `b` settles before the render of `a`; on the shared key `y` the tree
holds the value rendered for `b`. -/
theorem rerender_merge_in_call_order_witness :
    (renderWithContextWithAction demoEnv demoEntries (bundlerConfigGet decodeIdentity true none)
        none (some demoAction) []).encoderCalls
      = [[("x".toList, ⟨"a.x".toList⟩), ("y".toList, ⟨"b.y".toList⟩),
          ("z".toList, ⟨"b.z".toList⟩), ("_value".toList, ⟨"done".toList⟩)]]
    ∧ (demoRenderEntries 1 "b".toList ⟨[], none⟩).settledAt
        < (demoRenderEntries 0 "a".toList ⟨[], none⟩).settledAt
    ∧ ∀ k, k ≠ "_value".toList →
        objGet [("x".toList, (⟨"a.x".toList⟩ : JsVal)), ("y".toList, ⟨"b.y".toList⟩),
          ("z".toList, ⟨"b.z".toList⟩), ("_value".toList, ⟨"done".toList⟩)] k
        = foldRenders
            [some [("x".toList, ⟨"a.x".toList⟩), ("y".toList, ⟨"a.y".toList⟩)],
             some [("y".toList, ⟨"b.y".toList⟩), ("z".toList, ⟨"b.z".toList⟩)]] k :=
  ⟨rfl, by decide,
   (rerender_merge_in_call_order demoEnv demoEntries (bundlerConfigGet decodeIdentity true none)
      none demoAction [] ⟨"done".toList⟩
      [some [("x".toList, ⟨"a.x".toList⟩), ("y".toList, ⟨"a.y".toList⟩)],
       some [("y".toList, ⟨"b.y".toList⟩), ("z".toList, ⟨"b.z".toList⟩)]]
      rfl (List.Forall₂.cons rfl (List.Forall₂.cons rfl List.Forall₂.nil))).1
     _ (List.mem_singleton.2 rfl)⟩

/-- C9: a `rerender` call on a finalized scope fails with `already rendered`
and leaves the scope (the accumulated merge and the log of engine
invocations) as it was; a call on a scope that is not finalized does not
fail. In a POST render that reaches line 188, the calls made before that
line are all accepted and each invokes the engine once, and the calls made
after it all fail with `already rendered` without invoking the engine. -/
theorem rerender_after_finalization (env : Env) (entries : Entries)
    (bundlerConfig : Str → Except JsError (Option ModuleDescriptor)) :
    (∀ (s : Scope) (call : RerenderCall), s.rendered = true →
      rerender entries s call = (.error .alreadyRendered, s))
    ∧ (∀ (s : Scope) (call : RerenderCall), s.rendered = false →
      (rerender entries s call).1 = .ok ())
    ∧ (∀ (context : Option (Obj JsVal)) (fn : Action) (actionArgs : List JsVal) (v : JsVal)
        (merged : Elements),
      (fn (context.getD []) actionArgs).outcome = .ok v →
      (mergedElements entries (fn (context.getD []) actionArgs).beforeSettle).outcome
        = .ok merged →
      (renderWithContextWithAction env entries bundlerConfig context (some fn)
          actionArgs).rerenderResults
        = ((fn (context.getD []) actionArgs).beforeSettle
            ++ (fn (context.getD []) actionArgs).whileAwaiting).map (fun _ => .ok ())
          ++ (fn (context.getD []) actionArgs).afterwards.map (fun _ => .error .alreadyRendered)
      ∧ (renderWithContextWithAction env entries bundlerConfig context (some fn)
          actionArgs).renderEntriesCalls
        = ((fn (context.getD []) actionArgs).beforeSettle
            ++ (fn (context.getD []) actionArgs).whileAwaiting).map
              (fun c => (c.input, rerenderOpts entries c))) := by
  refine ⟨fun s call h => rerender_rendered entries s call h,
    fun s call h => by rw [rerender_not_rendered entries s call h], ?_⟩
  intro context fn actionArgs v merged hv he
  obtain ⟨-, -, -, h4, h5⟩ := renderWithContextWithAction_finalized env entries bundlerConfig
    context fn actionArgs v merged hv he
  obtain ⟨b1, b2, b3⟩ := rerenderAll_not_rendered entries Scope.initial
    (fn (context.getD []) actionArgs).beforeSettle rfl
  obtain ⟨d1, -, d3⟩ := rerenderAll_not_rendered entries
    (rerenderAll entries Scope.initial (fn (context.getD []) actionArgs).beforeSettle).2
    (fn (context.getD []) actionArgs).whileAwaiting b2
  have hl := rerenderAll_rendered entries
    { (rerenderAll entries
        (rerenderAll entries Scope.initial (fn (context.getD []) actionArgs).beforeSettle).2
        (fn (context.getD []) actionArgs).whileAwaiting).2 with rendered := true }
    (fn (context.getD []) actionArgs).afterwards rfl
  constructor
  · rw [h4, hl, b1, d1, List.map_append]
  · rw [h5, hl]
    simp only []
    rw [d3, b3, List.map_append]
    rfl

/-- C9 on the sample deployment: the two calls made by the action are
accepted, the call made after finalization fails with `already rendered`, and
the engine was invoked for the first two only. -/
theorem rerender_after_finalization_witness :
    (renderWithContextWithAction demoEnv demoEntries (bundlerConfigGet decodeIdentity true none)
        none (some demoAction) []).rerenderResults
      = [.ok (), .ok (), .error .alreadyRendered]
    ∧ (renderWithContextWithAction demoEnv demoEntries (bundlerConfigGet decodeIdentity true none)
        none (some demoAction) []).renderEntriesCalls
      = [("a".toList, ⟨[], none⟩), ("b".toList, ⟨[], none⟩)] :=
  (rerender_after_finalization demoEnv demoEntries (bundlerConfigGet decodeIdentity true none)).2.2
    none demoAction [] ⟨"done".toList⟩
    [("x".toList, ⟨"a.x".toList⟩), ("y".toList, ⟨"b.y".toList⟩), ("z".toList, ⟨"b.z".toList⟩)]
    rfl rfl

/-! ## The action payload decoder -/

theorem parseFormData_empty (contentType : Str) : parseFormData [] contentType = .ok [] := by
  unfold parseFormData
  have hsep : ∀ b : Str, jsSplit [] ("--".toList ++ b) = [[]] := by
    intro b
    have e : "--".toList ++ b = '-' :: '-' :: b := rfl
    rw [e]
    simp [jsSplit, splitGo]
  simp only [hsep]
  rfl

theorem decodeActionArgs_no_body (env : Env) (contentType : Option Str) :
    decodeActionArgs env none contentType
      = if (contentType.map (fun ct => startsWith ct "multipart/form-data".toList)).getD false
        then liftExt (env.decodeReply (.form []))
        else .ok [] := by
  unfold decodeActionArgs readBody
  simp only [parseFormData_empty]
  split <;> simp

theorem renderWithContextWithAction_actionCalls (env : Env) (entries : Entries)
    (bundlerConfig : Str → Except JsError (Option ModuleDescriptor))
    (context : Option (Obj JsVal)) (actionFn : Callee) (actionArgs a : List JsVal)
    (h : a ∈ (renderWithContextWithAction env entries bundlerConfig context actionFn
      actionArgs).actionCalls) : a = actionArgs := by
  unfold renderWithContextWithAction runWithRenderStore at h
  cases actionFn with
  | none => simp [Run.failed] at h
  | some fn =>
    simp only [] at h
    split at h
    · simpa using h
    · split at h
      · simpa using h
      · split at h <;> simpa using h

/-- The arguments of every action invocation of a POST run are the decoded ones. -/
theorem renderRsc_actionCalls (env : Env) (args : RenderRscArgs) (opts : RenderRscOpts)
    (a : List JsVal) (hm : args.method = .POST)
    (h : a ∈ (renderRsc env args opts).actionCalls) :
    decodeActionArgs env args.body args.contentType = .ok a := by
  unfold renderRsc at h
  simp only [hm] at h
  split at h
  · simp [Run.failed] at h
  · split at h
    · simp [Run.failed] at h
    · rename_i actionArgs hargs
      split at h
      · simp [Run.failed] at h
      · rw [hargs, renderWithContextWithAction_actionCalls _ _ _ _ _ _ _ h]

/-- A POST run that does not find its action made no call to the engine, the
encoder or an action. -/
theorem renderRsc_unknown_action (env : Env) (args : RenderRscArgs) (opts : RenderRscOpts)
    (rsfId : Str) (hm : args.method = .POST)
    (hid : env.decodeURIComponent args.input = .ok rsfId)
    (href : env.getServerReference rsfId = none) :
    renderRsc env args opts
      = match decodeActionArgs env args.body args.contentType with
        | .error e => Run.failed e
        | .ok _ => Run.failed (.serverActionNotFound rsfId env.getDebugDescription) := by
  unfold renderRsc
  simp only [hm, hid, liftExt, href]

/-- C6, as stated, fails: a POST for the unknown action id `actions.js#nope`
whose multipart body has a part without the blank line after its headers
fails while the body is parsed (line 254 reads `trim` of `undefined`), before
the server-reference table is consulted, so the error is not the
`Server action not found` one. -/
theorem unknown_action_counterexample :
    demoEnv.decodeURIComponent "actions.js#nope".toList = .ok "actions.js#nope".toList
    ∧ (demoEnv.getServerReference "actions.js#nope".toList).isNone = true
    ∧ (renderRsc demoEnv
        (postRequest "actions.js#nope".toList (some truncatedMultipartBody)
          (some exampleContentType)) demoOpts).error?
      = some (.typeError "Cannot read properties of undefined".toList)
    ∧ JsError.typeError "Cannot read properties of undefined".toList
      ≠ .serverActionNotFound "actions.js#nope".toList demoEnv.getDebugDescription := by
  refine ⟨rfl, rfl, rfl, ?_⟩
  intro h
  cases h

/-- C6, amended: a POST whose input decodes to an action id that the
server-reference table does not know fails without invoking the rendering
engine, the encoder or any action; when the body is read and decoded without
error it fails with `Server action not found: "<id>". ` followed by the debug
description, and otherwise with the error of the body decoding. -/
theorem unknown_action_rejected (env : Env) (args : RenderRscArgs) (opts : RenderRscOpts)
    (rsfId : Str) (hm : args.method = .POST)
    (hid : env.decodeURIComponent args.input = .ok rsfId)
    (href : env.getServerReference rsfId = none) :
    (renderRsc env args opts).renderEntriesCalls = []
    ∧ (renderRsc env args opts).encoderCalls = []
    ∧ (renderRsc env args opts).actionCalls = []
    ∧ (∃ e, (renderRsc env args opts).result = .error e)
    ∧ (∀ a, decodeActionArgs env args.body args.contentType = .ok a →
        ∃ e, (renderRsc env args opts).result = .error e
          ∧ e = .serverActionNotFound rsfId env.getDebugDescription
          ∧ e.message = "Server action not found: \"".toList ++ rsfId ++ "\". ".toList
              ++ env.getDebugDescription)
    ∧ (∀ e, decodeActionArgs env args.body args.contentType = .error e →
        (renderRsc env args opts).result = .error e) := by
  rw [renderRsc_unknown_action env args opts rsfId hm hid href]
  cases hd : decodeActionArgs env args.body args.contentType with
  | error e =>
    refine ⟨rfl, rfl, rfl, ⟨e, rfl⟩, ?_, ?_⟩
    · intro a ha; cases ha
    · intro e1 he1; cases he1; rfl
  | ok a =>
    refine ⟨rfl, rfl, rfl, ⟨_, rfl⟩, ?_, ?_⟩
    · intro a1 _
      exact ⟨_, rfl, rfl, rfl⟩
    · intro e1 he1; cases he1

/-- The amended C6 on the sample deployment: a POST without body for the
unknown action id `actions.js#nope`. -/
theorem unknown_action_rejected_witness :
    (renderRsc demoEnv (postRequest "actions.js#nope".toList none none) demoOpts).error?
      = some (.serverActionNotFound "actions.js#nope".toList "known: actions.js".toList)
    ∧ (renderRsc demoEnv (postRequest "actions.js#nope".toList none none)
        demoOpts).renderEntriesCalls = [] :=
  ⟨rfl, (unknown_action_rejected demoEnv (postRequest "actions.js#nope".toList none none)
    demoOpts "actions.js#nope".toList rfl rfl rfl).1⟩

/-- C8 (code defect): for a POST without body whose content type begins with
`multipart/form-data`, line 204 parses the empty body and hands the empty
form to `decodeReply` instead of leaving the argument sequence empty. The
decoder rejects a form without a root, so the request fails with
`Connection closed.` and the action is not invoked at all, whereas the same
request with another content type invokes the action with no argument. -/
theorem no_body_multipart_rejected :
    (postRequest "actions.js#plain".toList none (some exampleContentType)).body = none
    ∧ decodeActionArgs strictDecoderEnv none (some exampleContentType)
        = .error (.external "Connection closed.".toList)
    ∧ (renderRsc strictDecoderEnv
        (postRequest "actions.js#plain".toList none (some exampleContentType))
        demoOpts).actionCalls = []
    ∧ (renderRsc strictDecoderEnv
        (postRequest "actions.js#plain".toList none (some exampleContentType))
        demoOpts).error? = some (.external "Connection closed.".toList)
    ∧ (renderRsc strictDecoderEnv
        (postRequest "actions.js#plain".toList none (some "application/json".toList))
        demoOpts).actionCalls = [[]] := by
  refine ⟨rfl, rfl, rfl, rfl, rfl⟩

/-- The arguments of a POST without body: when the content type is absent or
does not begin with `multipart/form-data` the decoded sequence is empty and
the argument decoder is not consulted; when it begins with
`multipart/form-data` the empty form is handed to `decodeReply`, and the
action is invoked only with a sequence the decoder returns for it. -/
theorem no_body_arguments (env : Env) (args : RenderRscArgs) (opts : RenderRscOpts)
    (hm : args.method = .POST) (hb : args.body = none) :
    ((args.contentType.map (fun ct => startsWith ct "multipart/form-data".toList)).getD false
        = false →
      decodeActionArgs env args.body args.contentType = .ok []
        ∧ ∀ a, a ∈ (renderRsc env args opts).actionCalls → a = [])
    ∧ ((args.contentType.map (fun ct => startsWith ct "multipart/form-data".toList)).getD false
        = true →
      decodeActionArgs env args.body args.contentType = liftExt (env.decodeReply (.form []))
        ∧ ∀ a, a ∈ (renderRsc env args opts).actionCalls →
            env.decodeReply (.form []) = .ok a) := by
  have hd := decodeActionArgs_no_body env args.contentType
  rw [← hb] at hd
  constructor
  · intro hct
    rw [hct] at hd
    refine ⟨hd, fun a ha => ?_⟩
    have h := renderRsc_actionCalls env args opts a hm ha
    rw [hd] at h
    cases h
    rfl
  · intro hct
    rw [hct] at hd
    refine ⟨hd, fun a ha => ?_⟩
    have h := renderRsc_actionCalls env args opts a hm ha
    rw [hd] at h
    cases hr : env.decodeReply (.form []) with
    | error m => rw [hr] at h; cases h
    | ok a1 => rw [hr] at h; cases h; rfl

/-- On the sample deployment a POST without body and with a JSON content type
invokes the action once, with no argument. -/
theorem no_body_arguments_example :
    (renderRsc demoEnv (postRequest "actions.js#plain".toList none
        (some "application/json".toList)) demoOpts).actionCalls = [[]]
    ∧ decodeActionArgs demoEnv none (some "application/json".toList) = .ok [] :=
  ⟨rfl, ((no_body_arguments demoEnv (postRequest "actions.js#plain".toList none
    (some "application/json".toList)) demoOpts rfl rfl).1 rfl).1⟩

/-! ## The multipart parser and the module collector -/

/-- C2 (code defect): on the spec's own example, field `x` = `42` and file
`f` = `a.txt` with content `hi`, `parseFormData` yields the two entries, but
the content of the attachment is `hi` followed by the CR LF that precedes the
next boundary line: the delimiter's line break is trimmed from string values
only (line 254) and kept in file contents (line 251). -/
theorem parseFormData_example :
    parseFormData exampleMultipartBody exampleContentType
      = .ok [("x".toList, .text "42".toList),
             ("f".toList, .file "a.txt".toList "text/plain".toList "hi\r\n".toList)]
    ∧ "hi\r\n".toList ≠ "hi".toList := by
  refine ⟨rfl, by decide⟩

/-- No run of `renderRsc` calls `moduleIdCallback`: the function never reads
that argument. -/
theorem renderRsc_never_calls_moduleIdCallback (env : Env) (args : RenderRscArgs)
    (opts : RenderRscOpts) (hm : args.method = .GET) :
    (renderRsc env args opts).moduleIdCallbackCalls = [] := by
  rw [renderRsc_get env args opts hm]
  unfold renderWithContext runWithRenderStore
  simp only []
  split
  · rfl
  · rfl
  · split <;> rfl

/-- Whatever the entry and the collaborators, a collection that succeeds
returns the empty list. -/
theorem collect_returns_empty (env : Env) (entries : Entries) (input : Str) (ids : List Str)
    (h : unstable_collectClientModules env entries input = .ok ids) : ids = [] := by
  unfold unstable_collectClientModules at h
  simp only [renderRsc_never_calls_moduleIdCallback env (collectorArgs input)
    (collectorOpts entries) rfl, List.foldl_nil] at h
  split at h
  · cases h
  · split at h
    · cases h
    · cases h; rfl

/-- C1 (code defect): on the sample deployment the encoder reads the client
reference `/app/Button.js#default` while it serialises the entry `index`, and
the module resolver returns the descriptor with id `/app/Button.js`; yet
`unstable_collectClientModules` returns the empty list, because `renderRsc`
never calls the `moduleIdCallback` it is given. -/
theorem collect_misses_resolved_module :
    (renderRsc demoEnv (collectorArgs "index".toList) (collectorOpts demoEntries)).resolved
      = [("/app/Button.js#default".toList,
          .ok (some { id := "/app/Button.js".toList
                      chunks := ["chunk:/app/Button.js".toList]
                      name := "default".toList
                      async := true }))]
    ∧ (renderRsc demoEnv (collectorArgs "index".toList)
        (collectorOpts demoEntries)).moduleIdCallbackCalls = []
    ∧ unstable_collectClientModules demoEnv demoEntries "index".toList = .ok [] := by
  refine ⟨rfl, rfl, rfl⟩

/-! ## The branches of the module reference resolver -/

theorem isAlnum_of_isHexDigit (c : Char) (h : isHexDigit c = true) : isAlnum c = true := by
  simp only [isHexDigit, isAlnum, Bool.or_eq_true, Bool.and_eq_true, decide_eq_true_eq] at h ⊢
  have hf : 'f'.toNat ≤ 'z'.toNat := by decide
  have hF : 'F'.toNat ≤ 'Z'.toNat := by decide
  rcases h with (h | h) | h
  · exact Or.inl (Or.inl h)
  · exact Or.inl (Or.inr ⟨h.1, le_trans h.2 hf⟩)
  · exact Or.inr ⟨h.1, le_trans h.2 hF⟩

theorem ne_hash_of_isAlnum (c : Char) (h : isAlnum c = true) : (c != '#') = true := by
  rw [bne_iff_ne]
  intro e
  subst e
  revert h
  decide

theorem actionIdMatchHere_append (run rest : Str) (hlen : run.length = 40)
    (hrun : ∀ c ∈ run, isAlnum c = true) : actionIdMatchHere (run ++ '#' :: rest) = true := by
  unfold actionIdMatchHere
  rw [List.take_left' hlen, List.drop_left' hlen, hlen]
  simp only [decide_True, Bool.true_and, List.head?_cons, Bool.and_eq_true, List.all_eq_true,
    decide_eq_true_eq, and_true]
  exact hrun

theorem actionIdMatch_append (run rest : Str) (hlen : run.length = 40)
    (hrun : ∀ c ∈ run, isAlnum c = true) : actionIdMatch (run ++ '#' :: rest) = true := by
  cases run with
  | nil => simp at hlen
  | cons c cs =>
    have h := actionIdMatchHere_append (c :: cs) rest hlen hrun
    rw [List.cons_append] at h ⊢
    simp only [actionIdMatch, h, Bool.true_or]

theorem actionIdMatchHere_split (s : Str) (h : actionIdMatchHere s = true) :
    s = s.take 40 ++ '#' :: s.drop 41 ∧ (s.take 40).length = 40
      ∧ ∀ c ∈ s.take 40, isAlnum c = true := by
  unfold actionIdMatchHere at h
  simp only [Bool.and_eq_true, decide_eq_true_eq, List.all_eq_true] at h
  obtain ⟨⟨h1, h2⟩, h3⟩ := h
  refine ⟨?_, h1, h2⟩
  have hd : s.drop 40 = '#' :: s.drop 41 := by
    cases hd : s.drop 40 with
    | nil => rw [hd] at h3; cases h3
    | cons x xs =>
      rw [hd] at h3
      simp only [List.head?_cons, Option.some.injEq] at h3
      subst h3
      have e : s.drop 41 = (s.drop 40).drop 1 := by rw [List.drop_drop]
      rw [e, hd]
      rfl
  rw [← hd, List.take_append_drop]

/-- The test of line 105 succeeds exactly on the strings that hold, at some
position, 40 alphanumeric characters followed by `#`. -/
theorem actionIdMatch_iff (s : Str) : actionIdMatch s = true ↔ HasActionPattern s := by
  constructor
  · intro h
    induction s with
    | nil => cases h
    | cons c rest ih =>
      simp only [actionIdMatch, Bool.or_eq_true] at h
      rcases h with h | h
      · obtain ⟨e, hl, ha⟩ := actionIdMatchHere_split (c :: rest) h
        exact ⟨[], _, _, e, hl, ha⟩
      · obtain ⟨pre, run, tl, e, hl, ha⟩ := ih h
        exact ⟨c :: pre, run, tl, by rw [e]; rfl, hl, ha⟩
  · rintro ⟨pre, run, tl, e, hl, ha⟩
    subst e
    induction pre with
    | nil => exact actionIdMatch_append run tl hl ha
    | cons c cs ih =>
      rw [List.cons_append]
      simp only [actionIdMatch, ih, Bool.or_true]

theorem split_file (s : Str) : (jsSplit s "#".toList).headD [] = beforeFirstHash s := by
  rw [jsSplit_hash, splitGo_hash]
  rfl

theorem afterFirstHash_append (run rest : Str) (hrun : ∀ c ∈ run, isAlnum c = true) :
    afterFirstHash (run ++ '#' :: rest) = rest := by
  unfold afterFirstHash
  rw [List.dropWhile_append_of_pos (fun c hc => ne_hash_of_isAlnum c (hrun c hc))]
  rfl

/-- The resolver on an id for which the test of line 105 succeeds. -/
theorem bundlerConfigGet_special (decodeURI : Str → Ext Str) (isExporting : Bool)
    (resolveClientEntry : Option ResolveClientEntry) (encodedId : Str)
    (h : actionIdMatch encodedId = true) :
    bundlerConfigGet decodeURI isExporting resolveClientEntry encodedId
      = .ok (some { id := encodedId, chunks := [encodedId]
                    name := beforeFirstHash (afterFirstHash encodedId), async := true }) := by
  unfold bundlerConfigGet
  simp only [h, if_true, split_name]

/-- The resolver on an id for which the test of line 105 fails. -/
theorem bundlerConfigGet_regular (decodeURI : Str → Ext Str) (isExporting : Bool)
    (resolveClientEntry : Option ResolveClientEntry) (encodedId : Str)
    (h : actionIdMatch encodedId = false) :
    bundlerConfigGet decodeURI isExporting resolveClientEntry encodedId
      = match toFilePath decodeURI (beforeFirstHash encodedId) with
        | .error e => .error e
        | .ok filePath =>
          match resolveClientEntry with
          | some resolve =>
            .ok (some { id := (resolve filePath).id, chunks := (resolve filePath).url
                        name := beforeFirstHash (afterFirstHash encodedId), async := true })
          | none =>
            if isExporting then
              .ok (some { id := filePath, chunks := ["chunk:".toList ++ filePath]
                          name := beforeFirstHash (afterFirstHash encodedId), async := true })
            else .ok none := by
  unfold bundlerConfigGet
  simp only [h, split_name, split_file]
  rfl

theorem toFilePath_plain (decodeURI : Str → Ext Str) (file : Str)
    (h : startsWith file "file://".toList = false) : toFilePath decodeURI file = .ok file := by
  unfold toFilePath
  rw [h]
  rfl

theorem toFilePath_fileURL (decodeURI : Str → Ext Str) (file p : Str)
    (h : startsWith file "file://".toList = true)
    (hp : decodeURI (file.drop "file://".toList.length) = .ok p) :
    toFilePath decodeURI file = .ok p := by
  unfold toFilePath fileURLToFilePath
  rw [h, hp]
  rfl

/-- C11: for an encoded id made of 40 hexadecimal digits, `#` and an export
name, the module resolver returns, in every mode and whether or not a resolver
callback is supplied, the descriptor whose id is the whole encoded id and whose
chunks hold the whole encoded id alone; the result does not mention the
callback, nor the URI decoder. -/
theorem self_describing_action_id (decodeURI : Str → Ext Str) (isExporting : Bool)
    (resolveClientEntry : Option ResolveClientEntry) (digits exportName : Str)
    (hlen : digits.length = 40) (hhex : ∀ c ∈ digits, isHexDigit c = true) :
    bundlerConfigGet decodeURI isExporting resolveClientEntry (digits ++ '#' :: exportName)
      = .ok (some { id := digits ++ '#' :: exportName
                    chunks := [digits ++ '#' :: exportName]
                    name := beforeFirstHash exportName
                    async := true }) := by
  have halnum : ∀ c ∈ digits, isAlnum c = true :=
    fun c hc => isAlnum_of_isHexDigit c (hhex c hc)
  rw [bundlerConfigGet_special _ _ _ _ (actionIdMatch_append digits exportName hlen halnum),
    afterFirstHash_append digits exportName halnum]

/-- C11 on a sample id, in serving mode with a resolver callback supplied. -/
theorem self_describing_action_id_witness :
    bundlerConfigGet decodeIdentity false (some demoResolve) (sampleDigits ++ '#' :: "run".toList)
      = .ok (some { id := sampleDigits ++ '#' :: "run".toList
                    chunks := [sampleDigits ++ '#' :: "run".toList]
                    name := beforeFirstHash "run".toList
                    async := true }) :=
  self_describing_action_id decodeIdentity false (some demoResolve) sampleDigits "run".toList
    (by decide) (by decide)

theorem actionIdMatch_eq_false (s : Str) (h : ¬ HasActionPattern s) :
    actionIdMatch s = false := by
  cases hm : actionIdMatch s with
  | false => rfl
  | true => exact absurd ((actionIdMatch_iff s).1 hm) h

/-- C12, as stated, fails: the id made of forty letters `Z` and `#default` does
not begin with 40 hexadecimal digits, yet with a resolver callback supplied,
in serving mode and in export mode, the module resolver returns the descriptor
whose id and only chunk are the encoded id itself, and not the descriptor
built from what the callback returns for the part before `#`. -/
theorem resolver_callback_counterexample :
    (capitalsId.take 40).all isHexDigit = false
    ∧ bundlerConfigGet decodeIdentity false (some demoResolve) capitalsId
        = .ok (some { id := capitalsId, chunks := [capitalsId], name := "default".toList,
                      async := true })
    ∧ bundlerConfigGet decodeIdentity true (some demoResolve) capitalsId
        = .ok (some { id := capitalsId, chunks := [capitalsId], name := "default".toList,
                      async := true })
    ∧ ({ id := (demoResolve (beforeFirstHash capitalsId)).id
         chunks := (demoResolve (beforeFirstHash capitalsId)).url
         name := "default".toList
         async := true } : ModuleDescriptor)
      ≠ { id := capitalsId, chunks := [capitalsId], name := "default".toList, async := true } := by
  refine ⟨by decide, rfl, rfl, by decide⟩

/-- C12, amended: for an encoded id that holds nowhere 40 consecutive
characters of `0-9`, `a-z`, `A-Z` immediately followed by `#`, and a supplied
resolver callback `r`, in serving and in export mode alike, the module
resolver returns the descriptor with id `r(p).id`, chunks `r(p).url`, the name
and `async: true`, where `p` is the part of the id before its first `#`, kept
as it is when it does not start with `file://`, and otherwise stripped of that
prefix and decoded by `decodeURI`. -/
theorem resolver_callback_descriptor (decodeURI : Str → Ext Str) (isExporting : Bool)
    (r : ResolveClientEntry) (encodedId : Str) (h : ¬ HasActionPattern encodedId) :
    (startsWith (beforeFirstHash encodedId) "file://".toList = false →
      bundlerConfigGet decodeURI isExporting (some r) encodedId
        = .ok (some { id := (r (beforeFirstHash encodedId)).id
                      chunks := (r (beforeFirstHash encodedId)).url
                      name := beforeFirstHash (afterFirstHash encodedId)
                      async := true }))
    ∧ (∀ p, startsWith (beforeFirstHash encodedId) "file://".toList = true →
        decodeURI ((beforeFirstHash encodedId).drop "file://".toList.length) = .ok p →
        bundlerConfigGet decodeURI isExporting (some r) encodedId
          = .ok (some { id := (r p).id, chunks := (r p).url
                        name := beforeFirstHash (afterFirstHash encodedId), async := true })) := by
  have hf := actionIdMatch_eq_false encodedId h
  constructor
  · intro hs
    rw [bundlerConfigGet_regular _ _ _ _ hf, toFilePath_plain _ _ hs]
  · intro p hs hp
    rw [bundlerConfigGet_regular _ _ _ _ hf, toFilePath_fileURL _ _ p hs hp]

/-- The amended C12 on sample ids: a plain path in serving mode and a file URL
in export mode. -/
theorem resolver_callback_descriptor_witness :
    bundlerConfigGet decodeSpaces false (some demoResolve) "/app/Button.js#default".toList
        = .ok (some { id := "m:/app/Button.js".toList, chunks := ["/bundles/app/Button.js".toList]
                      name := "default".toList, async := true })
    ∧ bundlerConfigGet decodeSpaces true (some demoResolve)
          "file:///app/My%20Button.js#default".toList
        = .ok (some { id := "m:/app/My Button.js".toList
                      chunks := ["/bundles/app/My Button.js".toList]
                      name := "default".toList, async := true }) :=
  ⟨(resolver_callback_descriptor decodeSpaces false demoResolve "/app/Button.js#default".toList
      (fun hp => absurd ((actionIdMatch_iff _).2 hp) (by decide))).1 rfl,
   (resolver_callback_descriptor decodeSpaces true demoResolve
      "file:///app/My%20Button.js#default".toList
      (fun hp => absurd ((actionIdMatch_iff _).2 hp) (by decide))).2
      "/app/My Button.js".toList rfl rfl⟩

/-- C13, as stated, fails: the id made of forty letters `g` and `#run` does not
begin with 40 hexadecimal digits, yet in export mode without a resolver
callback the module resolver returns the descriptor whose id and only chunk
are the encoded id itself, and not the file path with the chunk `chunk:`
followed by the file path. -/
theorem export_counterexample :
    (lettersId.take 40).all isHexDigit = false
    ∧ bundlerConfigGet decodeIdentity true none lettersId
        = .ok (some { id := lettersId, chunks := [lettersId], name := "run".toList,
                      async := true })
    ∧ ({ id := beforeFirstHash lettersId
         chunks := ["chunk:".toList ++ beforeFirstHash lettersId]
         name := "run".toList
         async := true } : ModuleDescriptor)
      ≠ { id := lettersId, chunks := [lettersId], name := "run".toList, async := true } := by
  refine ⟨by decide, rfl, by decide⟩

/-- C13, amended: for an encoded id that holds nowhere 40 consecutive
characters of `0-9`, `a-z`, `A-Z` immediately followed by `#`, in export mode
without a resolver callback, the module resolver returns the descriptor with
id `p`, the single chunk `chunk:` followed by `p`, the name and `async: true`,
where `p` is the part of the id before its first `#`, converted from a file
URL when it starts with `file://`. -/
theorem export_descriptor (decodeURI : Str → Ext Str) (encodedId : Str)
    (h : ¬ HasActionPattern encodedId) :
    (startsWith (beforeFirstHash encodedId) "file://".toList = false →
      bundlerConfigGet decodeURI true none encodedId
        = .ok (some { id := beforeFirstHash encodedId
                      chunks := ["chunk:".toList ++ beforeFirstHash encodedId]
                      name := beforeFirstHash (afterFirstHash encodedId)
                      async := true }))
    ∧ (∀ p, startsWith (beforeFirstHash encodedId) "file://".toList = true →
        decodeURI ((beforeFirstHash encodedId).drop "file://".toList.length) = .ok p →
        bundlerConfigGet decodeURI true none encodedId
          = .ok (some { id := p, chunks := ["chunk:".toList ++ p]
                        name := beforeFirstHash (afterFirstHash encodedId), async := true }))
    ∧ (∀ d, bundlerConfigGet decodeURI true none encodedId = .ok (some d) →
        d.chunks.length = 1) := by
  have hf := actionIdMatch_eq_false encodedId h
  refine ⟨?_, ?_, ?_⟩
  · intro hs
    rw [bundlerConfigGet_regular _ _ _ _ hf, toFilePath_plain _ _ hs]
    rfl
  · intro p hs hp
    rw [bundlerConfigGet_regular _ _ _ _ hf, toFilePath_fileURL _ _ p hs hp]
    rfl
  · intro d hd
    rw [bundlerConfigGet_regular _ _ _ _ hf] at hd
    cases hfp : toFilePath decodeURI (beforeFirstHash encodedId) with
    | error e => rw [hfp] at hd; cases hd
    | ok p =>
      rw [hfp] at hd
      simp only [if_true] at hd
      cases hd
      rfl

/-- The amended C13 on sample ids: a plain path and a file URL. -/
theorem export_descriptor_witness :
    bundlerConfigGet decodeSpaces true none "/app/Button.js#default".toList
        = .ok (some { id := "/app/Button.js".toList, chunks := ["chunk:/app/Button.js".toList]
                      name := "default".toList, async := true })
    ∧ bundlerConfigGet decodeSpaces true none "file:///app/My%20Button.js#default".toList
        = .ok (some { id := "/app/My Button.js".toList
                      chunks := ["chunk:/app/My Button.js".toList]
                      name := "default".toList, async := true }) :=
  ⟨(export_descriptor decodeSpaces "/app/Button.js#default".toList
      (fun hp => absurd ((actionIdMatch_iff _).2 hp) (by decide))).1 rfl,
   (export_descriptor decodeSpaces "file:///app/My%20Button.js#default".toList
      (fun hp => absurd ((actionIdMatch_iff _).2 hp) (by decide))).2.1
      "/app/My Button.js".toList rfl rfl⟩

/-- C18, as stated, fails: the id made of forty letters `g` and `#run`, and the
id `lib/` followed by forty hexadecimal digits and `#run`, do not begin with 40
hexadecimal digits, yet with a resolver callback supplied the module resolver
returns for each the descriptor whose id and only chunk are the encoded id
itself, and not what the callback returns. -/
theorem special_case_counterexample :
    (lettersId.take 40).all isHexDigit = false
    ∧ bundlerConfigGet decodeIdentity false (some demoResolve) lettersId
        = .ok (some { id := lettersId, chunks := [lettersId], name := "run".toList,
                      async := true })
    ∧ (demoResolve (beforeFirstHash lettersId)).id ≠ lettersId
    ∧ (nestedHashId.take 40).all isHexDigit = false
    ∧ bundlerConfigGet decodeIdentity false (some demoResolve) nestedHashId
        = .ok (some { id := nestedHashId, chunks := [nestedHashId], name := "run".toList,
                      async := true })
    ∧ (demoResolve (beforeFirstHash nestedHashId)).id ≠ nestedHashId := by
  refine ⟨by decide, rfl, by decide, by decide, rfl, by decide⟩

/-- C18, amended: the self-describing special case applies exactly to the
encoded ids that hold, at some position, 40 consecutive characters of `0-9`,
`a-z`, `A-Z` immediately followed by `#`. For such an id the descriptor's id
and only chunk are the encoded id; for every other id, with a resolver
callback `r` supplied and the file path `p` obtained, the descriptor's id is
`r(p).id` and its chunks are `r(p).url`. -/
theorem special_case_exactly_on_pattern (decodeURI : Str → Ext Str) (isExporting : Bool)
    (r : ResolveClientEntry) (encodedId : Str) :
    (HasActionPattern encodedId →
      ∃ d, bundlerConfigGet decodeURI isExporting (some r) encodedId = .ok (some d)
        ∧ d.id = encodedId ∧ d.chunks = [encodedId])
    ∧ (¬ HasActionPattern encodedId →
      ∀ p, toFilePath decodeURI (beforeFirstHash encodedId) = .ok p →
        ∃ d, bundlerConfigGet decodeURI isExporting (some r) encodedId = .ok (some d)
          ∧ d.id = (r p).id ∧ d.chunks = (r p).url) := by
  constructor
  · intro hp
    rw [bundlerConfigGet_special _ _ _ _ ((actionIdMatch_iff encodedId).2 hp)]
    exact ⟨_, rfl, rfl, rfl⟩
  · intro hn p hp
    have hf : actionIdMatch encodedId = false := by
      cases hm : actionIdMatch encodedId with
      | false => rfl
      | true => exact absurd ((actionIdMatch_iff encodedId).1 hm) hn
    rw [bundlerConfigGet_regular _ _ _ _ hf, hp]
    exact ⟨_, rfl, rfl, rfl⟩

/-- The amended C18 on the id `/app/Button.js#default`, which holds no such
run of 40 characters. -/
theorem special_case_exactly_on_pattern_witness :
    ∃ d, bundlerConfigGet decodeIdentity false (some demoResolve) "/app/Button.js#default".toList
        = .ok (some d)
      ∧ d.id = (demoResolve "/app/Button.js".toList).id
      ∧ d.chunks = (demoResolve "/app/Button.js".toList).url :=
  (special_case_exactly_on_pattern decodeIdentity false demoResolve
    "/app/Button.js#default".toList).2
    (fun hp => absurd ((actionIdMatch_iff _).2 hp) (by decide))
    "/app/Button.js".toList rfl

/-! ## The resolver of `getSsrConfig` -/

/-- Whatever the encoded id and the callback, the object returned by the
resolver of `getSsrConfig` differs from every descriptor returned by the
resolver of `renderRsc`: its `id` is an object where the other has a string. -/
theorem ssr_descriptor_differs (r : ResolveClientEntry) (encodedId : Str)
    (d : ModuleDescriptor) :
    (ssrBundlerConfigGet r encodedId).fields ≠ d.fields := by
  intro h
  have hid := congrArg DescriptorFields.id h
  simp [SsrModuleDescriptor.fields, ModuleDescriptor.fields] at hid

/-- C14 (code defect): for the id `/app/Button.js#default` and the sample
callback, the resolver of `getSsrConfig` returns an object whose `id` is the
whole result of the callback and whose `chunks` holds that result, whereas the
resolver of `renderRsc` in serving mode returns the result's `id` as id and its
`url` as chunks; for a file URL the former hands the URL to the callback as it
is, the latter the decoded file path. -/
theorem ssr_descriptor_example :
    (ssrBundlerConfigGet demoResolve "/app/Button.js#default".toList).fields
        = { id := .entry { id := "m:/app/Button.js".toList
                           url := ["/bundles/app/Button.js".toList] }
            chunks := .entries [{ id := "m:/app/Button.js".toList
                                  url := ["/bundles/app/Button.js".toList] }]
            name := "default".toList
            async := true }
    ∧ (bundlerConfigGet decodeSpaces false (some demoResolve) "/app/Button.js#default".toList).map
          (fun d => d.map ModuleDescriptor.fields)
        = .ok (some { id := .string "m:/app/Button.js".toList
                      chunks := .strings ["/bundles/app/Button.js".toList]
                      name := "default".toList
                      async := true })
    ∧ (ssrBundlerConfigGet demoResolve "file:///app/My%20Button.js#default".toList).id.id
        = "m:file:///app/My%20Button.js".toList
    ∧ (bundlerConfigGet decodeSpaces false (some demoResolve)
          "file:///app/My%20Button.js#default".toList).map (fun d => d.map (fun m => m.id))
        = .ok (some "m:/app/My Button.js".toList) := by
  refine ⟨rfl, rfl, rfl, rfl⟩

/-! ## The build-time collector -/

/-- The result of a collection, in terms of the engine's outcome for the
entry and of the way the encoded stream ends. -/
theorem collect_eq (env : Env) (entries : Entries) (input : Str) :
    unstable_collectClientModules env entries input
      = match (entries.renderEntries 0 input
          { searchParams := [], buildConfig := entries.buildConfig }).outcome with
        | .error m => .error (.external m)
        | .ok none => .error (.noFunctionComponent input)
        | .ok (some elements) =>
          if hasReservedKey elements then .error .reservedKey
          else
            match env.streamFailure elements with
            | some reason => .error (.external reason)
            | none => .ok [] := by
  unfold unstable_collectClientModules
  simp only [renderRsc_never_calls_moduleIdCallback env (collectorArgs input)
    (collectorOpts entries) rfl, List.foldl_nil]
  rw [renderRsc_get env (collectorArgs input) (collectorOpts entries) rfl]
  cases ho : (entries.renderEntries 0 input
      { searchParams := [], buildConfig := entries.buildConfig }).outcome with
  | error m =>
    unfold renderWithContext runWithRenderStore
    have ho2 : ((collectorOpts entries).entries.renderEntries 0 (collectorArgs input).input
        { searchParams := (collectorArgs input).searchParams
          buildConfig := (collectorOpts entries).entries.buildConfig }).outcome = .error m := ho
    simp only [ho2, liftExt]
    rfl
  | ok r =>
    have ho2 : ((collectorOpts entries).entries.renderEntries 0 (collectorArgs input).input
        { searchParams := (collectorArgs input).searchParams
          buildConfig := (collectorOpts entries).entries.buildConfig }).outcome = .ok r := ho
    rw [renderWithContext_fulfilled _ _ _ _ _ _ r ho2]
    cases r with
    | none => rfl
    | some elements =>
      simp only []
      by_cases hk : hasReservedKey elements = true
      · simp only [hk, if_true]
        rfl
      · simp only [hk]
        rfl

/-- C15: two collections of the same entry return the same result, hence the
same set of module ids, as soon as the rendering engine has the same outcome
for that entry in both and the encoded stream ends the same way in both; the
instants at which the renders settle play no part. -/
theorem collect_deterministic (env1 env2 : Env) (entries1 entries2 : Entries) (input : Str)
    (hengine : (entries1.renderEntries 0 input
        { searchParams := [], buildConfig := entries1.buildConfig }).outcome
      = (entries2.renderEntries 0 input
        { searchParams := [], buildConfig := entries2.buildConfig }).outcome)
    (hstream : ∀ tree, env1.streamFailure tree = env2.streamFailure tree) :
    unstable_collectClientModules env1 entries1 input
      = unstable_collectClientModules env2 entries2 input := by
  rw [collect_eq env1 entries1 input, collect_eq env2 entries2 input, hengine]
  cases (entries2.renderEntries 0 input
      { searchParams := [], buildConfig := entries2.buildConfig }).outcome with
  | error m => rfl
  | ok r =>
    cases r with
    | none => rfl
    | some elements => simp only [hstream]

/-- C15 on the sample deployment: the collection of `index` over the sample
engine and over the same engine with later settle instants. -/
theorem collect_deterministic_witness :
    unstable_collectClientModules demoEnv demoEntries "index".toList
      = unstable_collectClientModules demoEnv slowEntries "index".toList :=
  collect_deterministic demoEnv demoEnv demoEntries slowEntries "index".toList rfl
    (fun _ => rfl)

/-! ## Rerenders accepted while the merge is awaited -/

/-- C17 (code defect): the sample action rerenders `a` and returns; while line
187 awaits the merge of `a`, `rerender("b")` is called. That call does not
fail and the engine renders `b`, with the slots `y` and `z`; yet the tree
handed to the encoder holds the slots of `a` and `_value` only. -/
theorem late_rerender_dropped :
    (renderWithContextWithAction demoEnv demoEntries (bundlerConfigGet decodeIdentity true none)
        none (some lateAction) []).rerenderResults = [.ok (), .ok ()]
    ∧ (renderWithContextWithAction demoEnv demoEntries (bundlerConfigGet decodeIdentity true none)
        none (some lateAction) []).renderEntriesCalls
      = [("a".toList, ⟨[], none⟩), ("b".toList, ⟨[], none⟩)]
    ∧ (demoRenderEntries 1 "b".toList ⟨[], none⟩).outcome
      = .ok (some [("y".toList, ⟨"b.y".toList⟩), ("z".toList, ⟨"b.z".toList⟩)])
    ∧ (renderWithContextWithAction demoEnv demoEntries (bundlerConfigGet decodeIdentity true none)
        none (some lateAction) []).encoderCalls
      = [[("x".toList, ⟨"a.x".toList⟩), ("y".toList, ⟨"a.y".toList⟩),
          ("_value".toList, ⟨"done".toList⟩)]] := by
  refine ⟨rfl, rfl, rfl, rfl⟩

/-- In a finalized POST render the tree handed to the encoder is determined by
the calls made before line 187 read `elementsPromise`: the calls accepted
while that line awaits leave no trace in it. -/
theorem encoded_tree_ignores_late_calls (env : Env) (entries : Entries)
    (bundlerConfig : Str → Except JsError (Option ModuleDescriptor))
    (context : Option (Obj JsVal)) (fn : Action) (actionArgs : List JsVal)
    (v : JsVal) (merged : Elements)
    (hv : (fn (context.getD []) actionArgs).outcome = .ok v)
    (he : (mergedElements entries (fn (context.getD []) actionArgs).beforeSettle).outcome
      = .ok merged) :
    (renderWithContextWithAction env entries bundlerConfig context (some fn)
        actionArgs).encoderCalls
      = if hasReservedKey merged then []
        else [objSet (objAssign [] merged) "_value".toList v] :=
  (renderWithContextWithAction_finalized env entries bundlerConfig context fn actionArgs v
    merged hv he).2.1

/-! ## Text fields with a blank line -/

/-- C19 (code defect): for a text field `note` whose content is `line1`, a
blank line and `line2`, `parseFormData` stores `line1` only: `split` with the
limit 2 keeps the first two pieces and drops what follows the content's first
blank line, whereas the whole content, trimmed, is `line1`, a blank line
and `line2`. -/
theorem parseFormData_blank_line :
    parseFormData twoParagraphBody exampleContentType
      = .ok [("note".toList, .text "line1".toList)]
    ∧ jsTrim "line1\r\n\r\nline2\r\n".toList = "line1\r\n\r\nline2".toList
    ∧ "line1".toList ≠ "line1\r\n\r\nline2".toList := by
  refine ⟨rfl, rfl, by decide⟩

/-! ## `MetroServerError` -/

theorem objGet_of_mem_objKeys {β : Type} (o : Obj β) (k : Str) (h : k ∈ objKeys o) :
    ∃ v, objGet o k = some v := by
  induction o with
  | nil => cases h
  | cons e rest ih =>
    obtain ⟨k1, v1⟩ := e
    rw [objGet_cons]
    cases hr : objGet rest k with
    | some w => exact ⟨w, rfl⟩
    | none =>
      have hk : k = k1 := by
        unfold objKeys at h ih
        rw [List.map_cons, List.mem_cons] at h
        rcases h with h | h
        · exact h
        · obtain ⟨v, hv⟩ := ih h
          rw [hr] at hv
          cases hv
      subst hk
      exact ⟨v1, by simp⟩

/-! ## The exported `getBuildConfig` -/

/-- The run of a hook: its result is the value the hook produces when its
calls are answered by the collector, and the renders performed are those of
the inputs the hook asks for, one for each call and in call order. -/
theorem runBuildHook_eq (env : Env) (entries : Entries) (hook : BuildHook) :
    (runBuildHook env entries hook).result
        = hook.output (unstable_collectClientModules env entries)
    ∧ (runBuildHook env entries hook).renders
        = (hook.requests (unstable_collectClientModules env entries)).map
            (fun input => renderRsc env (collectorArgs input) (collectorOpts entries)) := by
  induction hook with
  | done output => exact ⟨rfl, rfl⟩
  | collect input next ih =>
    obtain ⟨h1, h2⟩ := ih (unstable_collectClientModules env entries input)
    constructor
    · simp only [runBuildHook, BuildHook.output, h1]
    · simp only [runBuildHook, BuildHook.requests, h2, List.map_cons]

/-- C16: when the entries module defines no `getBuildConfig` hook, the
exported `getBuildConfig` returns the empty list and performs no render at
all; when the hook is defined, it returns exactly the value the hook produces
from the collector, and the renders performed are the ones the hook asked the
collector for. -/
theorem getBuildConfig_result (env : Env) (entries : Entries) :
    (entries.getBuildConfig = none →
      (getBuildConfig env entries).result = .ok []
        ∧ (getBuildConfig env entries).renders = [])
    ∧ (∀ hook, entries.getBuildConfig = some hook →
      (getBuildConfig env entries).result
          = hook.output (unstable_collectClientModules env entries)
        ∧ (getBuildConfig env entries).renders
          = (hook.requests (unstable_collectClientModules env entries)).map
              (fun input => renderRsc env (collectorArgs input) (collectorOpts entries))) := by
  constructor
  · intro h
    unfold getBuildConfig
    rw [h]
    exact ⟨rfl, rfl⟩
  · intro hook h
    unfold getBuildConfig
    rw [h]
    exact runBuildHook_eq env entries hook

/-- C16 on the sample deployment: without a hook there is no render; with the
hook that collects the modules of `index` there is one render, of `index`,
and the result is the manifest the hook builds from the collected list. -/
theorem getBuildConfig_result_witness :
    ((getBuildConfig demoEnv demoEntries).result = .ok []
      ∧ (getBuildConfig demoEnv demoEntries).renders = [])
    ∧ (getBuildConfig demoEnv hookedEntries).result = .ok []
    ∧ (getBuildConfig demoEnv hookedEntries).renders.map (fun run => run.renderEntriesCalls)
        = [[("index".toList, { searchParams := [], buildConfig := none })]] :=
  ⟨(getBuildConfig_result demoEnv demoEntries).1 rfl,
   ((getBuildConfig_result demoEnv hookedEntries).2 _ rfl).1, rfl⟩

/-- The loop of lines 27-29: every visited key other than `__proto__` ends up
with the payload's value, every other own property keeps its value. -/
theorem objGet_assign_keys (f : Str → PropValue) (keys : List Str) (base : Obj PropValue)
    (k : Str) :
    objGet (keys.foldl (fun this key => assignKey this key (f key)) base) k
      = if k ∈ keys ∧ k ≠ "__proto__".toList then some (f k) else objGet base k := by
  induction keys generalizing base with
  | nil => simp
  | cons key rest ih =>
    rw [List.foldl_cons, ih]
    by_cases h1 : k ∈ rest ∧ k ≠ "__proto__".toList
    · have h2 : k ∈ key :: rest ∧ k ≠ "__proto__".toList :=
        ⟨List.mem_cons_of_mem _ h1.1, h1.2⟩
      rw [if_pos h1, if_pos h2]
    · rw [if_neg h1]
      unfold assignKey
      by_cases hp : key = "__proto__".toList
      · rw [if_pos hp]
        have h2 : ¬ (k ∈ key :: rest ∧ k ≠ "__proto__".toList) := by
          rintro ⟨hm, hne⟩
          rcases List.mem_cons.1 hm with hk | hk
          · exact hne (hk.trans hp)
          · exact h1 ⟨hk, hne⟩
        rw [if_neg h2]
      · rw [if_neg hp, objGet_objSet]
        by_cases hk : k = key
        · subst hk
          have h2 : k ∈ k :: rest ∧ k ≠ "__proto__".toList := ⟨List.mem_cons_self _ _, hp⟩
          rw [if_pos rfl, if_pos h2]
        · have h2 : ¬ (k ∈ key :: rest ∧ k ≠ "__proto__".toList) := by
            rintro ⟨hm, hne⟩
            rcases List.mem_cons.1 hm with hk2 | hk2
            · exact hk hk2
            · exact h1 ⟨hk2, hne⟩
          rw [if_neg hk, if_neg h2]

theorem objGet_superMessage_proto (toStr : JsVal → Str) (message : PropValue) :
    objGet (superMessage toStr message) "__proto__".toList = none := by
  cases message <;> simp [superMessage, objGet]

/-- C20, as stated, fails: for an error payload that carries the key `code`,
the `code` of the `MetroServerError` built from it is the payload's value and
not `METRO_SERVER_ERROR`. -/
theorem metro_error_counterexample :
    objGet (MetroServerError.create demoToString codedPayload
        (.string "http://localhost:8081/x".toList)).own "code".toList
      = some (.string "E_CUSTOM".toList)
    ∧ PropValue.string "E_CUSTOM".toList ≠ .string "METRO_SERVER_ERROR".toList := by
  refine ⟨rfl, by decide⟩

/-- C20, amended: the `MetroServerError` built from a payload and a url has the
name `MetroServerError` unless `for...in` visits a key `name` of the payload,
the code `METRO_SERVER_ERROR` unless it visits a key `code`, and the given url
unless it visits a key `url`; on every visited key other than `__proto__` the
error holds the payload's value, and it never has an own property `__proto__`. -/
theorem metro_error_fields (toStr : JsVal → Str) (errorObject : ErrorPayload)
    (url : PropValue) :
    ("name".toList ∉ objKeys errorObject.enumerable →
      objGet (MetroServerError.create toStr errorObject url).own "name".toList
        = some (.string "MetroServerError".toList))
    ∧ ("code".toList ∉ objKeys errorObject.enumerable →
      objGet (MetroServerError.create toStr errorObject url).own "code".toList
        = some (.string "METRO_SERVER_ERROR".toList))
    ∧ ("url".toList ∉ objKeys errorObject.enumerable →
      objGet (MetroServerError.create toStr errorObject url).own "url".toList = some url)
    ∧ (∀ k, k ∈ objKeys errorObject.enumerable → k ≠ "__proto__".toList →
      objGet (MetroServerError.create toStr errorObject url).own k
        = objGet errorObject.enumerable k)
    ∧ objGet (MetroServerError.create toStr errorObject url).own "__proto__".toList = none := by
  have hcn : ¬ "code".toList = "name".toList := by decide
  have hun : ¬ "url".toList = "name".toList := by decide
  have hcu : ¬ "code".toList = "url".toList := by decide
  have hpn : ¬ "__proto__".toList = "name".toList := by decide
  have hpu : ¬ "__proto__".toList = "url".toList := by decide
  have hpc : ¬ "__proto__".toList = "code".toList := by decide
  refine ⟨?_, ?_, ?_, ?_, ?_⟩
  · intro h
    unfold MetroServerError.create
    simp only []
    rw [objGet_assign_keys, if_neg (fun hk => h hk.1), objGet_objSet, if_pos rfl]
  · intro h
    unfold MetroServerError.create
    simp only []
    rw [objGet_assign_keys, if_neg (fun hk => h hk.1), objGet_objSet, if_neg hcn,
      objGet_objSet, if_neg hcu, objGet_objSet, if_pos rfl]
  · intro h
    unfold MetroServerError.create
    simp only []
    rw [objGet_assign_keys, if_neg (fun hk => h hk.1), objGet_objSet, if_neg hun,
      objGet_objSet, if_pos rfl]
  · intro k hk hne
    unfold MetroServerError.create
    simp only []
    rw [objGet_assign_keys, if_pos ⟨hk, hne⟩]
    obtain ⟨v, hv⟩ := objGet_of_mem_objKeys errorObject.enumerable k hk
    rw [hv]
    rfl
  · unfold MetroServerError.create
    simp only []
    rw [objGet_assign_keys, if_neg (fun hk => hk.2 rfl), objGet_objSet, if_neg hpn,
      objGet_objSet, if_neg hpu, objGet_objSet, if_neg hpc, objGet_objSet, if_neg hpu,
      objGet_superMessage_proto]

/-- The amended C20 on two payloads: one with a message and diagnostics, and
one parsed from a JSON text with the member `__proto__`, which leaves the name,
the code and the url as the constructor set them and defines no property. -/
theorem metro_error_fields_witness :
    (objGet (MetroServerError.create demoToString plainPayload
        (.string "http://localhost:8081/x".toList)).own "name".toList
      = some (.string "MetroServerError".toList)
    ∧ objGet (MetroServerError.create demoToString plainPayload
        (.string "http://localhost:8081/x".toList)).own "code".toList
      = some (.string "METRO_SERVER_ERROR".toList)
    ∧ objGet (MetroServerError.create demoToString plainPayload
        (.string "http://localhost:8081/x".toList)).own "url".toList
      = some (.string "http://localhost:8081/x".toList))
    ∧ (objGet (MetroServerError.create demoToString protoPayload
        (.string "http://localhost:8081/x".toList)).own "code".toList
      = some (.string "METRO_SERVER_ERROR".toList)
    ∧ objGet (MetroServerError.create demoToString protoPayload
        (.string "http://localhost:8081/x".toList)).own "__proto__".toList = none) :=
  ⟨⟨(metro_error_fields demoToString plainPayload
        (.string "http://localhost:8081/x".toList)).1 (by decide),
    (metro_error_fields demoToString plainPayload
        (.string "http://localhost:8081/x".toList)).2.1 (by decide),
    (metro_error_fields demoToString plainPayload
        (.string "http://localhost:8081/x".toList)).2.2.1 (by decide)⟩,
   ⟨(metro_error_fields demoToString protoPayload
        (.string "http://localhost:8081/x".toList)).2.1 (by decide),
    (metro_error_fields demoToString protoPayload
        (.string "http://localhost:8081/x".toList)).2.2.2.2⟩⟩

end RscRenderer
